import Mathlib

/-!
Verification of the CivCloneJS simulation core against its specification.

The development shallowly embeds the server simulation core: tiles with
per-civilization visibility counters, improvements with work errands and
resource stores, the hex map with its neighborhood expansion, path tree
search and action handlers, and the export/import serialization layer.

JavaScript-specific behaviour that the claims depend on is modelled
explicitly: per-civ visibility counters live in JS objects whose absent
entries behave as undefined (incrementing one produces NaN), and path
distances are JS numbers that may be Infinity.

Modules of the repository that are absent from the source tree
(utils, the current tile module, yield, errand, trade, city, world, unit,
knowledge) are modelled from the specification; each such definition
carries a doc comment starting with "Modelled from the spec:".
-/

/-- A JS number as stored in a per-civ visibility counter: either NaN
(produced by incrementing an uninitialized object entry) or an integer. -/
inductive JsNum where
  | nan : JsNum
  | num (n : Int) : JsNum
deriving DecidableEq, Repr

/-- JS increment of a possibly-absent object entry (`obj[k]++`):
an absent entry reads as undefined, whose numeric coercion is NaN. -/
def jsInc : Option JsNum → JsNum
  | none => .nan
  | some .nan => .nan
  | some (.num n) => .num (n + 1)

/-- JS decrement of a possibly-absent object entry (`obj[k]--`). -/
def jsDec : Option JsNum → JsNum
  | none => .nan
  | some .nan => .nan
  | some (.num n) => .num (n - 1)

/-- JS truthiness of a possibly-absent numeric entry: undefined, NaN and 0
are falsy; every other number is truthy. -/
def jsTruthy : Option JsNum → Bool
  | none => false
  | some .nan => false
  | some (.num n) => decide (n ≠ 0)

/-- Lookup in a JS object with numeric keys, modelled as an association
list sorted by key. -/
def alGet {α : Type} : List (Int × α) → Int → Option α
  | [], _ => none
  | (k0, v0) :: rest, k => if k = k0 then some v0 else alGet rest k

/-- Update of a JS object with numeric keys.  JS objects enumerate
integer-like keys in ascending order, so the association list is kept
sorted by key. -/
def alSet {α : Type} : List (Int × α) → Int → α → List (Int × α)
  | [], k, v => [(k, v)]
  | (k0, v0) :: rest, k, v =>
    if k < k0 then (k, v) :: (k0, v0) :: rest
    else if k = k0 then (k, v) :: rest
    else (k0, v0) :: alSet rest k v

theorem alGet_alSet_self {α : Type} (l : List (Int × α)) (k : Int) (v : α) :
    alGet (alSet l k v) k = some v := by
  induction l with
  | nil => simp [alSet, alGet]
  | cons h t ih =>
    obtain ⟨k0, v0⟩ := h
    by_cases h1 : k < k0
    · simp [alSet, alGet, h1]
    · by_cases h2 : k = k0
      · simp [alSet, alGet, h1, h2]
      · simp [alSet, alGet, h1, h2, ih]

theorem alGet_alSet_ne {α : Type} (l : List (Int × α)) (k k' : Int) (v : α)
    (hne : k' ≠ k) : alGet (alSet l k v) k' = alGet l k' := by
  induction l with
  | nil => simp [alSet, alGet, hne]
  | cons h t ih =>
    obtain ⟨k0, v0⟩ := h
    by_cases h1 : k < k0
    · by_cases h3 : k' = k
      · exact absurd h3 hne
      · simp [alSet, alGet, h1, h3]
    · by_cases h2 : k = k0
      · subst h2
        simp [alSet, alGet, h1, hne]
      · by_cases h3 : k' = k0
        · simp [alSet, alGet, h1, h2, h3]
        · simp [alSet, alGet, h1, h2, h3, ih]

/-- Map coordinates (axial/offset hex grid position). -/
structure Coords where
  x : Int
  y : Int
deriving DecidableEq, Repr

/-- Modelled from the spec: `mod` from the missing utils module.
"x is taken modulo width before indexing (toroidal east/west wrap)";
the result is the nonnegative representative. -/
def jmod (a b : Int) : Int := a.emod b

/-- A resource vector over the closed key set {food, production}
(`Yield` from the tile module). -/
structure Yield where
  food : Int
  production : Int
deriving DecidableEq, Repr

def Yield.zero : Yield := ⟨0, 0⟩

def Yield.add (a b : Yield) : Yield :=
  ⟨a.food + b.food, a.production + b.production⟩

/-- Modelled from the spec: Yield subtraction saturates at zero. -/
def Yield.sub (a b : Yield) : Yield :=
  ⟨max 0 (a.food - b.food), max 0 (a.production - b.production)⟩

/-- Per-element minimum of two yields (`Yield.min` used by trade-route
creation). -/
def Yield.minY (a b : Yield) : Yield :=
  ⟨min a.food b.food, min a.production b.production⟩

/-- Modelled from the spec: `ResourceStore` from the missing yield module.
It wraps a Yield value with a per-key capacity. -/
structure ResourceStore where
  food : Int
  production : Int
  capacity : Yield
deriving DecidableEq, Repr

def ResourceStore.value (s : ResourceStore) : Yield := ⟨s.food, s.production⟩

/-- Modelled from the spec: a fresh store with the given capacity holds
nothing. -/
def ResourceStore.new (cap : Yield) : ResourceStore := ⟨0, 0, cap⟩

/-- Modelled from the spec: `incr` adds into the store without clamping
(clamping is performed separately by `cap`); the updated store is the
value `Improvement.import` continues with. -/
def ResourceStore.incr (s : ResourceStore) (y : Yield) : ResourceStore :=
  { s with food := s.food + y.food, production := s.production + y.production }

/-- Modelled from the spec: subtraction saturating at zero. -/
def ResourceStore.decr (s : ResourceStore) (y : Yield) : ResourceStore :=
  { s with food := max 0 (s.food - y.food),
           production := max 0 (s.production - y.production) }

/-- Modelled from the spec: `cap` clamps the stored value to the current
capacity, discarding extras. -/
def ResourceStore.capv (s : ResourceStore) : ResourceStore :=
  { s with food := min s.food s.capacity.food,
           production := min s.production s.capacity.production }

/-- Modelled from the spec: `fulfills(cost)` is componentwise ≥. -/
def ResourceStore.fulfills (s : ResourceStore) (cost : Yield) : Bool :=
  decide (cost.food ≤ s.food) && decide (cost.production ≤ s.production)

/-- Modelled from the spec: `divNumber(n)` yields a per-key floor-divided
vector. -/
def ResourceStore.divNumber (s : ResourceStore) (n : Int) : Yield :=
  ⟨s.food / n, s.production / n⟩

def ResourceStore.setCapacity (s : ResourceStore) (c : Yield) : ResourceStore :=
  { s with capacity := c }

/-- Unit promotion classes (`PromotionClass` in the unit module). -/
inductive PromotionClass where
  | CIVILLIAN | MELEE | RANGED | RECON
deriving DecidableEq, Repr

/-- Unit movement classes; LAND = 0, WATER = 1, AIR = 2. -/
inductive MovementClass where
  | LAND | WATER | AIR
deriving DecidableEq, Repr

/-- Knowledge branches (`KnowledgeBranch` in the knowledge module). -/
inductive KnowledgeBranch where
  | OFFENSE | DEFENSE | CIVICS | DEVELOPMENT
deriving DecidableEq, Repr

/-- Errand kinds (`ErrandType` in the errand module). -/
inductive ErrandType where
  | CONSTRUCTION | UNIT_TRAINING | RESEARCH
deriving DecidableEq, Repr

/-- Modelled from the spec: the knowledge list of the missing knowledge
module (name and branch of each knowledge). -/
def knowledgeList : List (String × KnowledgeBranch) :=
  [("scout", .DEVELOPMENT), ("r1", .OFFENSE), ("r2", .DEFENSE)]

/-- Modelled from the spec: `WorkErrand.errandCostTable` of the missing
errand module, giving the resource cost of each errand option. -/
def errandCostTable : ErrandType → String → Yield
  | .CONSTRUCTION, _ => ⟨0, 10⟩
  | .UNIT_TRAINING, _ => ⟨5, 2⟩
  | .RESEARCH, _ => ⟨2, 2⟩

/-- Modelled from the spec: `WorkErrand` from the missing errand module:
errand type, option payload, cost, per-turn progress, completion flag and
optional location.  The shared ResourceStore lives on the host
improvement. -/
structure WorkErrand where
  etype : ErrandType
  action : String
  cost : Yield
  storedThisTurn : Yield
  completed : Bool
  location : Option Coords
deriving DecidableEq, Repr

/-- The payload of `startErrand` (`ErrandAction`). -/
structure ErrandAction where
  etype : ErrandType
  action : String
  location : Option Coords
deriving DecidableEq, Repr

/-- Modelled from the spec: `Trader` of the missing trade module.  The
producer and sink improvements are identified by the route endpoints
(the spec has traders reattach to improvements by re-running route
endpoints), so only the route is stored. -/
structure Trader where
  civID : Int
  routePath : List Coords
  routeDist : Int
  speed : Int
  capacity : Yield
  carried : Yield
  expired : Bool
deriving DecidableEq, Repr

def Trader.expire (t : Trader) : Trader := { t with expired := true }

/-- Modelled from the spec: `Trader.store(share)` attempts to load up to
capacity − carried and returns the overflow. -/
def Trader.storeY (t : Trader) (share : Yield) : Trader × Yield :=
  let space : Yield := ⟨max 0 (t.capacity.food - t.carried.food),
                        max 0 (t.capacity.production - t.carried.production)⟩
  let loaded := Yield.minY share space
  ({ t with carried := t.carried.add loaded }, share.sub loaded)

/-- `Improvement.yieldTable` (per-turn yield of each improvement type). -/
def yieldTable : String → Option Yield
  | "settlement" => some ⟨2, 2⟩
  | "encampment" => some ⟨0, 1⟩
  | "farm" => some ⟨1, 0⟩
  | "forest" => some ⟨1, 0⟩
  | _ => none

/-- `Improvement.storeCapTable` (storage capacity of each improvement
type). -/
def storeCapTable : String → Option Yield
  | "settlement" => some ⟨20, 2⟩
  | "encampment" => some ⟨10, 1⟩
  | "farm" => some ⟨20, 0⟩
  | _ => none

/-- `Improvement.naturalImprovementTable`. -/
def naturalImprovementTable : String → Bool
  | "forest" => true
  | _ => false

/-- `Improvement.improvementHeightTable` (defaulted to 0 when absent). -/
def improvementHeightTable : String → Int
  | "forest" => 5
  | _ => 0

/-- `Improvement.trainableUnitClassTable`. -/
def trainableUnitClassTable : String → List PromotionClass
  | "settlement" => [.CIVILLIAN]
  | "encampment" => [.MELEE, .RANGED, .RECON]
  | _ => []

/-- `Improvement.researchableKnowledgeBranchTable`. -/
def researchableKnowledgeBranchTable : String → List KnowledgeBranch
  | "campus" => [.OFFENSE, .DEFENSE, .CIVICS, .DEVELOPMENT]
  | _ => []

/-- An improvement on a tile.  Subscriber lists hold the trader records
themselves (the source holds object references into the same arena). -/
structure Improvement where
  itype : String
  pillaged : Bool
  isNatural : Bool
  yieldv : Yield
  storage : ResourceStore
  errand : Option WorkErrand
  traders : List Trader
  suppliers : List Trader
deriving DecidableEq, Repr

/-- The `Improvement` constructor: natural improvements contribute zero
yield; storage capacity comes from the type table (empty when absent). -/
def Improvement.new (itype : String) (baseYield : Yield) : Improvement :=
  let isNat := naturalImprovementTable itype
  { itype := itype
    pillaged := false
    isNatural := isNat
    yieldv := if isNat then Yield.zero
              else baseYield.add ((yieldTable itype).getD Yield.zero)
    storage := ResourceStore.new ((storeCapTable itype).getD Yield.zero)
    errand := none
    traders := []
    suppliers := [] }

/-- `Improvement.getResearchableKnowledgeNames`: knowledges whose branch
this improvement can research. -/
def Improvement.getResearchableKnowledgeNames (imp : Improvement) : List String :=
  (knowledgeList.filter
    (fun kb => (researchableKnowledgeBranchTable imp.itype).contains kb.2)).map (·.1)

/-- `Improvement.startErrand`: creates the work errand; the shared store
capacity is raised to the errand cost while the errand is live
(modelled from the spec for the missing errand module constructor). -/
def Improvement.startErrand (imp : Improvement) (a : ErrandAction) : Improvement :=
  let cost := errandCostTable a.etype a.action
  { imp with
    errand := some ⟨a.etype, a.action, cost, Yield.zero, false, a.location⟩
    storage := imp.storage.setCapacity cost }

/-- `Improvement.store`: adds resources into storage and into the live
errand progress counter. -/
def Improvement.storeRes (imp : Improvement) (r : Yield) : Improvement :=
  { imp with
    storage := imp.storage.incr r
    errand := imp.errand.map (fun e => { e with storedThisTurn := e.storedThisTurn.add r }) }

/-- The trader loop of `Improvement.work`: expired traders are spliced
out; each live trader receives an equal share of the remaining storage
and the store is decremented by what the trader kept. -/
def workTraderLoop : List Trader → Int → ResourceStore → List Trader × ResourceStore
  | [], _, s => ([], s)
  | t :: rest, count, s =>
    if t.expired then workTraderLoop rest (count - 1) s
    else
      let share := s.divNumber count
      let (t2, surplus) := t.storeY share
      let s2 := s.decr (share.sub surplus)
      let (rest2, s3) := workTraderLoop rest (count - 1) s2
      (t2 :: rest2, s3)

/-- `Improvement.work`: complete the errand when storage covers its cost
(expiring all suppliers, subtracting the cost, restoring the default
capacity), reset the per-turn progress, run the trader loop, add the
improvement yield, and finally cap storage at its capacity. -/
def Improvement.work (imp : Improvement) : Improvement :=
  let imp1 :=
    match imp.errand with
    | none => imp
    | some e =>
      if imp.storage.fulfills e.cost then
        { imp with
          errand := some { e with completed := true, storedThisTurn := Yield.zero }
          suppliers := imp.suppliers.map Trader.expire
          storage := (imp.storage.decr e.cost).setCapacity
            ((storeCapTable imp.itype).getD Yield.zero) }
      else
        { imp with errand := some { e with storedThisTurn := Yield.zero } }
  let (traders2, storage2) :=
    workTraderLoop imp1.traders (Int.ofNat imp1.traders.length) imp1.storage
  let imp2 := { imp1 with traders := traders2, storage := storage2 }
  let imp3 := imp2.storeRes imp2.yieldv
  { imp3 with storage := imp3.storage.capv }

/-- Modelled from the spec: a decimal number of the knowledge subsystem,
kept as an explicit fraction num/den with positive denominator. -/
structure QNum where
  num : Int
  den : Int
deriving DecidableEq, Repr

/-- Modelled from the spec: one per-tile knowledge entry of the missing
knowledge map (branch → points accumulated, bounded per knowledge). -/
structure Knowl where
  name : String
  points : QNum
  maxPoints : QNum
deriving DecidableEq, Repr

/-- Modelled from the spec: a unit of the missing unit module, with the
fields the exercised code paths read. -/
structure GUnit where
  utype : String
  civID : Int
  coords : Coords
  hp : Int
  movement : Int
  visionRange : Int
deriving DecidableEq, Repr

/-- `unit.getData()` payload (modelled: the published unit snapshot). -/
structure UnitData where
  utype : String
  civID : Int
  hp : Int
deriving DecidableEq, Repr

def GUnit.getData (u : GUnit) : UnitData := ⟨u.utype, u.civID, u.hp⟩

/-- `tileMovementCostTable`: [land mp, water mp], 0 = impassable. -/
def tileMovementCostTable : String → Option (Int × Int)
  | "plains" => some (1, 0)
  | "desert" => some (1, 0)
  | "ocean" => some (0, 1)
  | "river" => some (3, 1)
  | "mountain" => some (0, 0)
  | _ => none

/-- One hex cell.  The owning city is an arena handle (index into the
map's city list) standing for the source's object reference; per-civ
visibility is a JS object of numeric counters and discovery a JS object
of booleans, both starting empty as in the `Tile` constructor. -/
structure Tile where
  ttype : String
  tileHeight : Int
  baseYield : Yield
  unit : Option GUnit
  improvement : Option Improvement
  owner : Option Nat
  discoveredBy : List (Int × Bool)
  visibleTo : List (Int × JsNum)
  knowledge : List Knowl
deriving DecidableEq, Repr

/-- The `Tile` constructor: empty slots, empty visibility objects. -/
def Tile.new (ttype : String) (tileHeight : Int) (baseYield : Yield) : Tile :=
  { ttype := ttype, tileHeight := tileHeight, baseYield := baseYield
    unit := none, improvement := none, owner := none
    discoveredBy := [], visibleTo := [], knowledge := [] }

/-- `tile.movementCost`, assigned from the cost table by the constructor
(the tile type never changes, so it is derived here). -/
def Tile.movementCost (t : Tile) : Option (Int × Int) :=
  tileMovementCostTable t.ttype

/-- `Tile.setVisibility(civID, visible)`: increments (on) or decrements
(off) the per-civ counter with JS object semantics, then marks the tile
discovered whenever turning visibility on for a civ that had not
discovered it. -/
def Tile.setVisibility (t : Tile) (civID : Int) (visible : Bool) : Tile :=
  let v := if visible then jsInc (alGet t.visibleTo civID)
           else jsDec (alGet t.visibleTo civID)
  let t1 := { t with visibleTo := alSet t.visibleTo civID v }
  if visible && !((alGet t1.discoveredBy civID).getD false) then
    { t1 with discoveredBy := alSet t1.discoveredBy civID true }
  else t1

/-- `Tile.clearVisibility(civID)`: resets the per-civ counter to 0. -/
def Tile.clearVisibility (t : Tile) (civID : Int) : Tile :=
  { t with visibleTo := alSet t.visibleTo civID (.num 0) }

def Tile.getTileYield (t : Tile) : Yield :=
  match t.improvement with
  | some imp => t.baseYield.add imp.yieldv
  | none => t.baseYield

/-- Modelled from the spec: total elevation is tile height plus
improvement height. -/
def Tile.getTotalElevation (t : Tile) : Int :=
  t.tileHeight + (match t.improvement with
                  | some imp => improvementHeightTable imp.itype
                  | none => 0)

/-- `errand.getData()` payload (modelled: published errand snapshot). -/
structure ErrandData where
  etype : ErrandType
  action : String
  completed : Bool
deriving DecidableEq, Repr

/-- `improvement.getData()` payload. -/
structure ImprovementData where
  itype : String
  pillaged : Bool
  storage : ResourceStore
  errand : Option ErrandData
  isNatural : Bool
deriving DecidableEq, Repr

def Improvement.getData (imp : Improvement) : ImprovementData :=
  { itype := imp.itype, pillaged := imp.pillaged, storage := imp.storage
    errand := imp.errand.map (fun e => ⟨e.etype, e.action, e.completed⟩)
    isNatural := imp.isNatural }

/-- `city.getData()` payload (modelled: the owner snapshot published in
tile data). -/
structure CityData where
  name : String
  civID : Int
deriving DecidableEq, Repr

/-- The published per-tile snapshot (`TileData`).  The unit and visible
entries are absent (`none`) in the discovered snapshot and present only
in the visible snapshot. -/
structure TileData where
  ttype : String
  movementCost : Option (Int × Int)
  improvement : Option ImprovementData
  owner : Option CityData
  yieldv : Yield
  unit : Option UnitData
  visible : Option Bool
deriving DecidableEq, Repr

/-- A city: name, owning civ, center coords and the set of owned
coords. -/
structure City where
  center : Coords
  name : String
  civID : Int
  tiles : List Coords
deriving DecidableEq, Repr

def City.getData (c : City) : CityData := ⟨c.name, c.civID⟩

/-- Modelled from the spec: a city acquires tiles via `setTileOwner`;
the owned coords form a set, so adding a member is a no-op. -/
def City.addTile (c : City) (co : Coords) : City :=
  if co ∈ c.tiles then c else { c with tiles := c.tiles ++ [co] }

/-- Modelled from the spec: removal from the owned-coord set. -/
def City.removeTile (c : City) (co : Coords) : City :=
  { c with tiles := c.tiles.filter (fun x => x ≠ co) }

/-- `Tile.getDiscoveredData`: type, movement cost, improvement and owner
snapshots and total yield; no unit and no visibility flag. The owner
handle is resolved against the city arena. -/
def Tile.getDiscoveredData (cities : List City) (t : Tile) : TileData :=
  { ttype := t.ttype
    movementCost := t.movementCost
    improvement := t.improvement.map Improvement.getData
    owner := (t.owner.bind cities.get?).map City.getData
    yieldv := t.getTileYield
    unit := none
    visible := none }

/-- `Tile.getVisibleData`: the discovered snapshot plus the unit slot and
`visible = true`. -/
def Tile.getVisibleData (cities : List City) (t : Tile) : TileData :=
  { t.getDiscoveredData cities with
    unit := t.unit.map GUnit.getData
    visible := some true }

/-- Modelled from the spec: `tile.canSupply(requirement)` holds when the
tile's improvement can act as a producer for the requirement. -/
def Tile.canSupply (t : Tile) (requirement : Yield) : Bool :=
  match t.improvement with
  | none => false
  | some imp =>
    !imp.pillaged && !imp.isNatural &&
      ((decide (0 < requirement.food) && decide (0 < imp.storage.food)) ||
       (decide (0 < requirement.production) && decide (0 < imp.storage.production)))

/-- Modelled from the spec: unit types trainable by the tile's
improvement (`tile.getTrainableUnitTypes`), via the unit promotion-class
table of the missing unit module. -/
def unitPromotionClassTable : String → Option PromotionClass
  | "settler" => some .CIVILLIAN
  | "builder" => some .CIVILLIAN
  | "warrior" => some .MELEE
  | "slinger" => some .RANGED
  | "scout" => some .RECON
  | _ => none

/-- Modelled from the spec: the unit types whose promotion class the
tile's improvement knows how to train. -/
def Tile.getTrainableUnitTypes (t : Tile) : List String :=
  match t.improvement with
  | none => []
  | some imp =>
    (["settler", "builder", "warrior", "slinger", "scout"].filter
      (fun ut => match unitPromotionClassTable ut with
        | some pc => (trainableUnitClassTable imp.itype).contains pc
        | none => false))

/-- A JS number used as a path distance: an integer or Infinity
(impassable tiles cost Infinity). -/
inductive JDist where
  | inf : JDist
  | fin (n : Int) : JDist
deriving DecidableEq, Repr

def JDist.add : JDist → JDist → JDist
  | .inf, _ => .inf
  | .fin _, .inf => .inf
  | .fin a, .fin b => .fin (a + b)

/-- JS strict less-than on distances. -/
def JDist.ltb : JDist → JDist → Bool
  | .inf, _ => false
  | .fin _, .inf => true
  | .fin a, .fin b => decide (a < b)

/-- JS less-or-equal on distances. -/
def JDist.leb : JDist → JDist → Bool
  | .inf, .fin _ => false
  | .inf, .inf => true
  | .fin _, .inf => true
  | .fin a, .fin b => decide (a ≤ b)

/-- Modelled from the spec: `getAdjacentCoords` of the missing utils
module: the six odd-x-offset hex neighbors, with the y offsets depending
on the parity of x. -/
def getAdjacentCoords (c : Coords) : List Coords :=
  if jmod c.x 2 = 0 then
    [⟨c.x + 1, c.y⟩, ⟨c.x - 1, c.y⟩, ⟨c.x, c.y + 1⟩, ⟨c.x, c.y - 1⟩,
     ⟨c.x + 1, c.y - 1⟩, ⟨c.x - 1, c.y - 1⟩]
  else
    [⟨c.x + 1, c.y⟩, ⟨c.x - 1, c.y⟩, ⟨c.x, c.y + 1⟩, ⟨c.x, c.y - 1⟩,
     ⟨c.x + 1, c.y + 1⟩, ⟨c.x - 1, c.y + 1⟩]

/-- List modification at an index (in-place object mutation through an
arena handle). -/
def listModify {α : Type} : List α → Nat → (α → α) → List α
  | [], _, _ => []
  | a :: l, 0, f => f a :: l
  | a :: l, n + 1, f => a :: listModify l n f

/-- Indexing a JS array with a possibly negative JS number. -/
def listGetI {α : Type} (l : List α) (i : Int) : Option α :=
  if i < 0 then none else l.get? i.toNat

/-- The map: tile arena (flat row-major array), city arena, trader list
and the pending update queue.  Each update closure is represented by the
coords it captured. -/
structure GameMap where
  height : Int
  width : Int
  tiles : List Tile
  cities : List City
  traders : List Trader
  updates : List Coords
deriving DecidableEq, Repr

/-- `pos({x,y}) = y*width + mod(x,width)`, the flat index key. -/
def GameMap.posOf (m : GameMap) (c : Coords) : Int :=
  c.y * m.width + jmod c.x m.width

/-- `coords(pos)`: inverse of `posOf` (Math.floor division). -/
def GameMap.coordsOf (m : GameMap) (p : Int) : Coords :=
  ⟨jmod p m.width, Int.fdiv p m.width⟩

/-- `getTile`: array indexing; out-of-range reads give undefined. -/
def GameMap.getTile (m : GameMap) (c : Coords) : Option Tile :=
  listGetI m.tiles (m.posOf c)

/-- Mutation of the tile object at the given coords. -/
def GameMap.modifyTile (m : GameMap) (c : Coords) (f : Tile → Tile) : GameMap :=
  let p := m.posOf c
  if p < 0 then m else { m with tiles := listModify m.tiles p.toNat f }

/-- `tileUpdate(coords)`: push a per-civ update closure onto the queue
(represented by its captured coords). -/
def GameMap.tileUpdate (m : GameMap) (c : Coords) : GameMap :=
  { m with updates := m.updates ++ [c] }

/-- `getCivTile(civID, tile)`: null when undiscovered, the visible
snapshot when the per-civ counter is truthy, the discovered snapshot
otherwise. -/
def GameMap.getCivTile (m : GameMap) (civID : Int) (t : Tile) : Option TileData :=
  if (alGet t.discoveredBy civID).getD false then
    if jsTruthy (alGet t.visibleTo civID) then some (t.getVisibleData m.cities)
    else some (t.getDiscoveredData m.cities)
  else none

/-- The state threaded through `getNeighborsRecurse`: the visited tile
set (tile object identity is flat-array position), the output coord list
and the best-remaining-range memo. -/
structure NbrState where
  tileSet : List Int
  coordList : List Coords
  rangeMap : List (Int × Int)
deriving Repr

/-- The re-expansion guard of `getNeighborsRecurse`:
`!rangeMap[pos] || rangeMap[pos] < r - 1` (an absent entry and a 0 entry
are both falsy). -/
def nbrGuard (rangeMap : List (Int × Int)) (p : Int) (r : Int) : Bool :=
  match alGet rangeMap p with
  | none => true
  | some v => decide (v = 0) || decide (v < r - 1)

/-- `Map.getNeighborsRecurse`: depth-first expansion out to range r,
memoizing remaining range per tile.  The fuel argument bounds recursion
depth; every call decreases r by 1 and stops at r < 0, so any
fuel > max(r,0) reproduces the source recursion exactly. -/
def GameMap.gnr (m : GameMap) :
    Nat → Coords → Int → Option (Tile → Coords → Bool) → NbrState → NbrState
  | 0, _, _, _, st => st
  | fuel + 1, c, r, filter, st =>
    match m.getTile c with
    | none => st
    | some tile =>
      if r < 0 then st
      else
        let p := m.posOf c
        let st1 :=
          if p ∈ st.tileSet then st
          else
            let keep := match filter with
              | none => true
              | some f => f tile c
            if keep then
              { tileSet := st.tileSet ++ [p]
                coordList := st.coordList ++ [c]
                rangeMap := alSet st.rangeMap p r }
            else st
        (getAdjacentCoords c).foldl
          (fun acc a =>
            if nbrGuard acc.rangeMap (m.posOf a) r then
              m.gnr fuel a (r - 1) filter acc
            else acc)
          st1

/-- `Map.getNeighborsCoords(coords, r, options)`. -/
def GameMap.getNeighborsCoords (m : GameMap) (c : Coords) (r : Int)
    (filter : Option (Tile → Coords → Bool)) : List Coords :=
  (m.gnr (r.toNat + 1) c r filter ⟨[], [], []⟩).coordList

/-- The search state of `getPathTree`: the FIFO queue, the distance map
and the parent map (both JS objects keyed by flat position). -/
structure PTState where
  queue : List Coords
  dst : List (Int × JDist)
  paths : List (Int × Coords)
deriving Repr

/-- One relaxation of `getPathTree` along the edge atPos → adjPos:
impassable or untabled terrain costs Infinity (AIR always costs 1); the
distance entry is written on every improvement, but the parent entry and
the queue push happen only when the new distance is within range. -/
def GameMap.ptRelax (m : GameMap) (range : Int) (mode : MovementClass)
    (atPos : Coords) (st : PTState) (adjPos : Coords) : PTState :=
  match m.getTile adjPos with
  | none => st
  | some tile =>
    let movementCost : JDist :=
      if mode = .AIR then .fin 1
      else
        match tile.movementCost with
        | some mc =>
          let cv := if mode = .LAND then mc.1 else mc.2
          if cv = 0 then .inf else .fin cv
        | none => .inf
    let pAdj := m.posOf adjPos
    let pAt := m.posOf atPos
    let dAt := (alGet st.dst pAt).getD .inf
    let newd := dAt.add movementCost
    let improve :=
      match alGet st.dst pAdj with
      | none => true
      | some old => JDist.ltb newd old
    if improve then
      if JDist.leb newd (.fin range) then
        { queue := st.queue ++ [adjPos]
          dst := alSet st.dst pAdj newd
          paths := alSet st.paths pAdj atPos }
      else { st with dst := alSet st.dst pAdj newd }
    else st

/-- One dequeue step of `getPathTree`: relax every edge from the dequeued
position to its radius-1 recursive neighborhood. -/
def GameMap.ptStep (m : GameMap) (range : Int) (mode : MovementClass)
    (atPos : Coords) (st : PTState) : PTState :=
  (m.getNeighborsCoords atPos 1 none).foldl (m.ptRelax range mode atPos) st

/-- The `getPathTree` work loop: dequeue until the queue is empty.  The
fuel bounds the number of dequeues; `none` marks fuel exhaustion (the
source loop always terminates, so adequate fuel reproduces it). -/
def GameMap.ptRun (m : GameMap) (range : Int) (mode : MovementClass) :
    Nat → PTState → Option PTState
  | fuel, st =>
    match st.queue with
    | [] => some st
    | atPos :: rest =>
      match fuel with
      | 0 => none
      | fuel + 1 => m.ptRun range mode fuel (m.ptStep range mode atPos { st with queue := rest })

/-- `Map.getPathTree(srcPos, range, mode)`: BFS with relaxation from the
source, returning the parent map and the distance map. -/
def GameMap.getPathTree (m : GameMap) (src : Coords) (range : Int)
    (mode : MovementClass) (fuel : Nat) :
    Option (List (Int × Coords) × List (Int × JDist)) :=
  (m.ptRun range mode fuel ⟨[src], [(m.posOf src, .fin 0)], []⟩).map
    (fun st => (st.paths, st.dst))

/-- Tile object identity (for the identity checks in `findRoute`): two
coords reference the same tile object exactly when they resolve to the
same valid slot of the tile arena; two out-of-range reads are both
undefined and so also identical. -/
def GameMap.tileRefEq (m : GameMap) (a b : Coords) : Bool :=
  let slot : Coords → Option Int := fun c =>
    let p := m.posOf c
    if 0 ≤ p ∧ p.toNat < m.tiles.length then some p else none
  slot a = slot b

/-- `Map.findPath`: walk parent pointers from srcPos until the parent is
the target.  Fuel bounds the walk; the source recursion terminates on
every parent map produced by `getPathTree`. -/
def GameMap.findPath (m : GameMap) :
    Nat → List (Int × Coords) → Int → Coords → Option (List Coords)
  | 0, _, _, _ => none
  | fuel + 1, pathTree, srcPosKey, target =>
    match alGet pathTree srcPosKey with
    | none => none
    | some next =>
      if m.posOf next = m.posOf target then some [target]
      else
        match m.findPath fuel pathTree (m.posOf next) target with
        | none => none
        | some sub => some (next :: sub)

/-- `Map.findRoute`: prepend the source coord and require that the full
path ends reference the same tile objects as the requested source and
target. -/
def GameMap.findRoute (m : GameMap) (pathTree : List (Int × Coords))
    (dst : List (Int × JDist)) (srcPosKey : Int) (target : Coords) :
    Option (List Coords × JDist) :=
  let srcCoords := m.coordsOf srcPosKey
  match m.findPath (pathTree.length + 1) pathTree srcPosKey target with
  | none => none
  | some path =>
    let fullPath := srcCoords :: path
    if m.tileRefEq srcCoords (fullPath.headD srcCoords) &&
       m.tileRefEq target (path.getLastD target) then
      some (fullPath, (alGet dst srcPosKey).getD .inf)
    else none

/-- MAGIC NUMBER CONSTANTS of the map module. -/
def TRADER_SPEED : Int := 1

def TRADER_CAPACITY : Yield := ⟨10, 10⟩

/-- Fuel used where the source runs an unbounded loop; large enough for
every concrete map in this development and irrelevant to the
loop-invariant theorems. -/
def ptFuel : Nat := 100000

def GameMap.addTrader (m : GameMap) (t : Trader) : GameMap :=
  { m with traders := m.traders ++ [t] }

/-- The civ owning a tile, through the city arena. -/
def GameMap.tileOwnerCiv (m : GameMap) (t : Tile) : Option Int :=
  (t.owner.bind m.cities.get?).map (·.civID)

/-- Stable ascending sort of the distance-map keys by distance
(`Object.keys(dst).sort(...)` with the ascending comparator). -/
def sortKeysByDst (dst : List (Int × JDist)) (keys : List Int) : List Int :=
  let le : Int → Int → Bool := fun a b =>
    JDist.leb ((alGet dst a).getD .inf) ((alGet dst b).getD .inf)
  let insert : Int → List Int → List Int := fun a l =>
    List.rec [a] (fun b t ih => if le a b then a :: b :: t else b :: ih) l
  keys.foldr insert []

/-- `Map.createTradeRoutes(civID, coords, sink, requirement, range,
mode)`: walk reachable positions in order of increasing distance and emit
a trader from every tile owned by the civ that can supply the
requirement and admits a route.  Modelled from the spec for the missing
trade module: the new trader subscribes to the producer improvement (as
consumer) and to the sink improvement (as supplier). -/
def GameMap.createTradeRoutes (m : GameMap) (civID : Int) (c : Coords)
    (requirement : Yield) (range : Int) (mode : MovementClass) : GameMap :=
  match m.getPathTree c range mode ptFuel with
  | none => m
  | some (pathTree, dst) =>
    let posKeys := sortKeysByDst dst (dst.map (·.1))
    posKeys.foldl
      (fun mm p =>
        match listGetI mm.tiles p with
        | none => mm
        | some tile =>
          if mm.tileOwnerCiv tile = some civID && tile.canSupply requirement then
            match mm.findRoute pathTree dst p c with
            | none => mm
            | some route =>
              let trader : Trader :=
                { civID := civID, routePath := route.1
                  routeDist := match route.2 with | .fin n => n | .inf => 0
                  speed := TRADER_SPEED
                  capacity := Yield.minY TRADER_CAPACITY requirement
                  carried := Yield.zero, expired := false }
              let mm := mm.addTrader trader
              let mm := mm.modifyTile (mm.coordsOf p) (fun t =>
                { t with improvement := (t.improvement.map
                    (fun imp => { imp with traders := imp.traders ++ [trader] })) })
              mm.modifyTile c (fun t =>
                { t with improvement := (t.improvement.map
                    (fun imp => { imp with suppliers := imp.suppliers ++ [trader] })) })
          else mm)
      m

/-- `Map.setTileOwner(coords, owner, overwrite)`: when the tile is owned
and overwrite is false, return unchanged; otherwise strip the old owner
(removing the coord from its city and turning its civ's visibility off),
set the new owner, turn the new civ's visibility on and add the coord to
the new city.  The owner city is an arena handle. -/
def GameMap.setTileOwner (m : GameMap) (c : Coords) (ownerIdx : Nat)
    (overwrite : Bool) : GameMap :=
  match m.getTile c with
  | none => m
  | some tile =>
    match tile.owner with
    | some oldIdx =>
      if !overwrite then m
      else
        let m1 := { m with cities := listModify m.cities oldIdx (fun ct => ct.removeTile c) }
        let oldCivID := ((m1.cities.get? oldIdx).map (·.civID)).getD 0
        let m2 := m1.modifyTile c (fun t => t.setVisibility oldCivID false)
        let ownerCivID := ((m2.cities.get? ownerIdx).map (·.civID)).getD 0
        let m3 := m2.modifyTile c
          (fun t => { t.setVisibility ownerCivID true with owner := some ownerIdx })
        { m3 with cities := listModify m3.cities ownerIdx (fun ct => ct.addTile c) }
    | none =>
      let ownerCivID := ((m.cities.get? ownerIdx).map (·.civID)).getD 0
      let m3 := m.modifyTile c
        (fun t => { t.setVisibility ownerCivID true with owner := some ownerIdx })
      { m3 with cities := listModify m3.cities ownerIdx (fun ct => ct.addTile c) }

/-- `Map.canSettleOn(tile)`. -/
def canSettleOn (t : Tile) : Bool :=
  t.owner.isNone &&
  decide (t.ttype ≠ "ocean") && decide (t.ttype ≠ "frozen_ocean") &&
  decide (t.ttype ≠ "mountain") && decide (t.ttype ≠ "coastal") &&
  decide (t.ttype ≠ "frozen_coastal") && decide (t.ttype ≠ "river")

/-- `Map.canBuildOn(tile)`. -/
def canBuildOn (t : Tile) : Bool :=
  decide (t.ttype ≠ "ocean") && decide (t.ttype ≠ "frozen_ocean") &&
  decide (t.ttype ≠ "mountain")

/-- `Map.buildImprovementAt(coords, type, ownerID)`: requires ownership
and a buildable tile, then replaces the tile's improvement and pushes a
tile update. -/
def GameMap.buildImprovementAt (m : GameMap) (c : Coords) (ty : String)
    (ownerID : Int) : GameMap :=
  match m.getTile c with
  | none => m
  | some tile =>
    if m.tileOwnerCiv tile ≠ some ownerID then m
    else if !(canBuildOn tile) then m
    else
      (m.modifyTile c (fun t =>
        { t with improvement := some (Improvement.new ty t.baseYield) })).tileUpdate c

/-- `Map.settleCityAt(coords, name, civID)`: gated on `canSettleOn`;
creates and registers the city, assigns every coord of the radius-1
recursive neighborhood to it (without overwrite, pushing a tile update
each), then builds the settlement improvement at the center. -/
def GameMap.settleCityAt (m : GameMap) (c : Coords) (name : String)
    (civID : Int) : Bool × GameMap :=
  match m.getTile c with
  | none => (false, m)
  | some tile =>
    if !(canSettleOn tile) then (false, m)
    else
      let city : City := ⟨c, name, civID, []⟩
      let cityIdx := m.cities.length
      let m1 := { m with cities := m.cities ++ [city] }
      let nbrs := m1.getNeighborsCoords c 1 none
      let m2 := nbrs.foldl
        (fun mm nb => (mm.setTileOwner nb cityIdx false).tileUpdate nb) m1
      (true, m2.buildImprovementAt c "settlement" civID)

/-- `Map.startErrandAt(coords, improvement, errand)`: starts the errand
on the tile's improvement and pushes a tile update. -/
def GameMap.startErrandAt (m : GameMap) (c : Coords) (a : ErrandAction) : GameMap :=
  (m.modifyTile c (fun t =>
    { t with improvement := (t.improvement.map (·.startErrand a)) })).tileUpdate c

/-- The errand cost read back from the tile after `startErrandAt`
(`(tile.improvement as Worksite).errand.cost`). -/
def GameMap.errandCostAt (m : GameMap) (c : Coords) : Yield :=
  ((((m.getTile c).bind (·.improvement)).bind (·.errand)).map (·.cost)).getD Yield.zero

/-- `Map.startConstructionAt(coords, improvementType, ownerID)`: gated
only on ownership; unconditionally replaces the tile's improvement by a
fresh worksite, starts a CONSTRUCTION errand on it, creates trade routes
for its cost and pushes a tile update. -/
def GameMap.startConstructionAt (m : GameMap) (c : Coords)
    (improvementType : String) (ownerID : Int) : GameMap :=
  match m.getTile c with
  | none => m
  | some tile =>
    if m.tileOwnerCiv tile ≠ some ownerID then m
    else
      let m1 := m.modifyTile c (fun t =>
        { t with improvement := some (Improvement.new "worksite" t.baseYield) })
      let m2 := m1.startErrandAt c ⟨.CONSTRUCTION, improvementType, none⟩
      let m3 := m2.createTradeRoutes ownerID c (m2.errandCostAt c) 5 .LAND
      m3.tileUpdate c

/-- `Map.trainUnitAt(coords, unitType, ownerID)`: the owned tile's
improvement must be able to train the unit type and must have no live
errand; then a UNIT_TRAINING errand is started and trade routes created.
A tile update is pushed unconditionally at the end. -/
def GameMap.trainUnitAt (m : GameMap) (c : Coords) (unitType : String)
    (ownerID : Int) : GameMap :=
  match m.getTile c with
  | none => m
  | some tile =>
    let m1 :=
      if m.tileOwnerCiv tile = some ownerID ∧ tile.improvement.isSome then
        if (tile.getTrainableUnitTypes).contains unitType then
          if (tile.improvement.bind (·.errand)).isNone then
            let ma := m.startErrandAt c ⟨.UNIT_TRAINING, unitType, some c⟩
            ma.createTradeRoutes ownerID c (ma.errandCostAt c) 5 .LAND
          else m
        else m
      else m
    m1.tileUpdate c

/-- `Map.researchKnowledgeAt(coords, knowledgeName, ownerID)`: the owned
tile's improvement must be able to research the knowledge and must have
no live errand; then a RESEARCH errand is started and trade routes
created.  A tile update is pushed unconditionally at the end. -/
def GameMap.researchKnowledgeAt (m : GameMap) (c : Coords)
    (knowledgeName : String) (ownerID : Int) : GameMap :=
  match m.getTile c with
  | none => m
  | some tile =>
    let m1 :=
      if m.tileOwnerCiv tile = some ownerID ∧ tile.improvement.isSome then
        if ((tile.improvement.map
              Improvement.getResearchableKnowledgeNames).getD []).contains knowledgeName then
          if (tile.improvement.bind (·.errand)).isNone then
            let ma := m.startErrandAt c ⟨.RESEARCH, knowledgeName, some c⟩
            ma.createTradeRoutes ownerID c (ma.errandCostAt c) 5 .LAND
          else m
        else m
      else m
    m1.tileUpdate c

/-- `Improvement.export()`: type, pillaged, isNatural, yield and storage
(the errand serialized alongside); subscriber lists are not persisted. -/
structure ImprovementExport where
  itype : String
  pillaged : Bool
  isNatural : Bool
  yieldv : Yield
  storage : ResourceStore
  errand : Option WorkErrand
deriving DecidableEq, Repr

def Improvement.exportI (imp : Improvement) : ImprovementExport :=
  ⟨imp.itype, imp.pillaged, imp.isNatural, imp.yieldv, imp.storage, imp.errand⟩

/-- `Improvement.import(data)`: rebuild the store from the serialized
capacity and value, restore the errand against the shared store and
reset the subscriber lists. -/
def Improvement.importI (d : ImprovementExport) : Improvement :=
  { itype := d.itype
    pillaged := d.pillaged
    isNatural := d.isNatural
    yieldv := d.yieldv
    storage := (ResourceStore.new d.storage.capacity).incr
      ⟨d.storage.food, d.storage.production⟩
    errand := d.errand
    traders := []
    suppliers := [] }

/-- Modelled from the spec: `Tile.export()` of the missing tile module.
The persistent simulation fields are serialized: terrain, elevation,
base yield, unit slot, improvement, knowledge and the monotone per-civ
discovery object.  The tile owner is not serialized (the spec restores
it by re-running `setTileOwner` per city), and the per-civ visibility
counters are derived state rebuilt from scratch at every beginTurn, so
they are not serialized either. -/
structure TileExport where
  ttype : String
  tileHeight : Int
  baseYield : Yield
  unit : Option GUnit
  improvement : Option ImprovementExport
  discoveredBy : List (Int × Bool)
  knowledge : List Knowl
deriving DecidableEq, Repr

def Tile.exportT (t : Tile) : TileExport :=
  ⟨t.ttype, t.tileHeight, t.baseYield, t.unit, t.improvement.map Improvement.exportI,
   t.discoveredBy, t.knowledge⟩

/-- Modelled from the spec: `Tile.import(data)`: restore the serialized
fields; the owner and the visibility counters start empty. -/
def Tile.importT (d : TileExport) : Tile :=
  { ttype := d.ttype
    tileHeight := d.tileHeight
    baseYield := d.baseYield
    unit := d.unit
    improvement := d.improvement.map Improvement.importI
    owner := none
    discoveredBy := d.discoveredBy
    visibleTo := []
    knowledge := d.knowledge }

/-- Modelled from the spec: `City.export()` — name, civ, center and the
owned-coord set. -/
structure CityExport where
  center : Coords
  name : String
  civID : Int
  tiles : List Coords
deriving DecidableEq, Repr

def City.exportC (ct : City) : CityExport := ⟨ct.center, ct.name, ct.civID, ct.tiles⟩

def City.importC (d : CityExport) : City := ⟨d.center, d.name, d.civID, d.tiles⟩

/-- Modelled from the spec: `Trader.export()` serializes the trader
record; on import the producer and sink improvements are reattached by
re-running the route endpoints, which the record carries. -/
structure TraderExport where
  civID : Int
  routePath : List Coords
  routeDist : Int
  speed : Int
  capacity : Yield
  carried : Yield
  expired : Bool
deriving DecidableEq, Repr

def Trader.exportTr (t : Trader) : TraderExport :=
  ⟨t.civID, t.routePath, t.routeDist, t.speed, t.capacity, t.carried, t.expired⟩

def Trader.importTr (d : TraderExport) : Trader :=
  ⟨d.civID, d.routePath, d.routeDist, d.speed, d.capacity, d.carried, d.expired⟩

/-- `Map.export()`: height, width and the tile, city and trader arrays. -/
structure MapExport where
  height : Int
  width : Int
  tiles : List TileExport
  cities : List CityExport
  traders : List TraderExport
deriving DecidableEq, Repr

def GameMap.exportM (m : GameMap) : MapExport :=
  ⟨m.height, m.width, m.tiles.map Tile.exportT, m.cities.map City.exportC,
   m.traders.map Trader.exportTr⟩

/-- `Map.import(data)`: a fresh map with imported tiles; each city is
imported and its owned coords re-assigned through
`setTileOwner(coords, city, false)`; traders are imported last. -/
def GameMap.importM (d : MapExport) : GameMap :=
  let m0 : GameMap :=
    { height := d.height, width := d.width
      tiles := d.tiles.map Tile.importT
      cities := [], traders := [], updates := [] }
  let m1 := d.cities.foldl
    (fun mm cd =>
      let city := City.importC cd
      let idx := mm.cities.length
      let mm1 := { mm with cities := mm.cities ++ [city] }
      city.tiles.foldl (fun acc co => acc.setTileOwner co idx false) mm1)
    m0
  { m1 with traders := d.traders.map Trader.importTr }

/-- Modelled from the spec: a civilization of the missing world module —
its unit roster and chosen color. -/
structure Civ where
  units : List GUnit
  color : Option String
deriving DecidableEq, Repr

/-- Modelled from the spec: the world — the map plus the per-civ
state. -/
structure World where
  map : GameMap
  civs : List Civ
deriving DecidableEq, Repr

/-- Modelled from the spec: `World.export()` — the exported map and the
civs. -/
structure WorldExport where
  map : MapExport
  civs : List Civ
deriving DecidableEq, Repr

def World.exportW (w : World) : WorldExport := ⟨w.map.exportM, w.civs⟩

def World.importW (d : WorldExport) : World := ⟨GameMap.importM d.map, d.civs⟩

/-- Modelled from the spec: a player record as serialized by
`Player.export()`. -/
structure PlayerRec where
  civID : Option Int
deriving DecidableEq, Repr

/-- The game metadata record. -/
structure MetaData where
  gameName : String
  ownerName : Option String
  playerCount : Int
  playersConnected : Int
deriving DecidableEq, Repr

/-- The game: the world, players by name, player count, metadata and the
started flag. -/
structure Game where
  world : World
  players : List (String × PlayerRec)
  playerCount : Int
  metaData : MetaData
  hasStarted : Bool
deriving DecidableEq, Repr

/-- `Game.export()`. -/
structure GameExport where
  world : WorldExport
  players : List (String × PlayerRec)
  playerCount : Int
  metaData : MetaData
  hasStarted : Bool
deriving DecidableEq, Repr

def Game.exportG (g : Game) : GameExport :=
  ⟨g.world.exportW, g.players, g.playerCount, g.metaData, g.hasStarted⟩

/-- `Game.import(data)`: rebuild the world and players and restore the
scalar fields. -/
def Game.importG (d : GameExport) : Game :=
  ⟨World.importW d.world, d.players, d.playerCount, d.metaData, d.hasStarted⟩

/-! Concrete fixtures used by the counterexamples and witnesses. -/

def exTilePlains : Tile := Tile.new "plains" 0 ⟨1, 0⟩

def exMountain : Tile := Tile.new "mountain" 0 ⟨0, 0⟩

def exC00 : Coords := ⟨0, 0⟩

def exUnit : GUnit := ⟨"scout", 0, exC00, 100, 0, 2⟩

/-- A tile discovered by civ 0 whose visibility counter has dipped to −1
(a state the spec itself allows transiently). -/
def exTileVisNeg : Tile :=
  { exTilePlains with discoveredBy := [(0, true)], visibleTo := [(0, .num (-1))],
                      unit := some exUnit }

/-- A tile discovered by civ 0 but not currently visible. -/
def exTileDisc : Tile :=
  { exTilePlains with discoveredBy := [(0, true)], visibleTo := [(0, .num 0)],
                      unit := some exUnit }

/-- A one-tile map with an unowned tile (used for failing handler
calls). -/
def exM3 : GameMap := ⟨1, 1, [exTilePlains], [], [], []⟩

def exErrandOld : WorkErrand :=
  ⟨.RESEARCH, "r1", errandCostTable .RESEARCH "r1", Yield.zero, false, some exC00⟩

def exCampus : Improvement :=
  { Improvement.new "campus" ⟨1, 0⟩ with errand := some exErrandOld }

def exTileCampus : Tile :=
  { exTilePlains with improvement := some exCampus, owner := some 0,
                      discoveredBy := [(0, true)], visibleTo := [(0, .num 1)] }

def exCity8 : City := ⟨exC00, "beta", 0, [exC00]⟩

/-- A 2×2 map whose corner tile is owned by civ 0 and carries a campus
improvement with a live RESEARCH errand. -/
def exM8 : GameMap :=
  ⟨2, 2, [exTileCampus, exTilePlains, exTilePlains, exTilePlains], [exCity8], [], []⟩

/-- A 5×5 map: plains at the center (2,2) and its six hex neighbors, an
impassable mountain ring everywhere else. -/
def exTiles5 : List Tile :=
  (List.range 25).map (fun p =>
    if p = 12 ∨ p = 13 ∨ p = 11 ∨ p = 17 ∨ p = 7 ∨ p = 8 ∨ p = 6 then exTilePlains
    else exMountain)

def exM5 : GameMap := ⟨5, 5, exTiles5, [], [], []⟩

def exC22 : Coords := ⟨2, 2⟩

def exPT5 : Option (List (Int × Coords) × List (Int × JDist)) :=
  exM5.getPathTree exC22 10 .LAND ptFuel

def exP5 : List (Int × Coords) := (exPT5.map Prod.fst).getD []

def exD5 : List (Int × JDist) := (exPT5.map Prod.snd).getD []

/-- A 2×2 all-plains unowned map (for settling). -/
def exM9 : GameMap :=
  ⟨2, 2, [exTilePlains, exTilePlains, exTilePlains, exTilePlains], [], [], []⟩

def exTileOwned : Tile :=
  { exTilePlains with owner := some 0, discoveredBy := [(0, true)],
                      visibleTo := [(0, .num 1)] }

def exCity4 : City := ⟨exC00, "gamma", 0, [exC00]⟩

def exMap4 : GameMap := ⟨1, 2, [exTileOwned, exTilePlains], [exCity4], [], []⟩

/-- A small full game state with one settled city (for the save/load
round trip). -/
def exGame4 : Game :=
  ⟨⟨exMap4, [⟨[], none⟩]⟩, [("alice", ⟨some 0⟩)], 1, ⟨"g", none, 1, 1⟩, true⟩

/-! Helper lemmas. -/

theorem foldl_inv {α β : Type} (f : β → α → β) (P : β → Prop) (l : List α)
    (hstep : ∀ b a, P b → P (f b a)) :
    ∀ st, P st → P (l.foldl f st) := by
  induction l with
  | nil => intro st h; exact h
  | cons a t ih => intro st h; exact ih _ (hstep st a h)

theorem mem_alSet {α : Type} (l : List (Int × α)) (k : Int) (v : α)
    (p : Int) (q : α) (h : (p, q) ∈ alSet l k v) : p = k ∨ (p, q) ∈ l := by
  induction l with
  | nil =>
    simp [alSet] at h
    exact Or.inl h.1
  | cons hd t ih =>
    obtain ⟨k0, v0⟩ := hd
    by_cases h1 : k < k0
    · simp [alSet, h1] at h
      rcases h with h | h | h
      · exact Or.inl h.1
      · exact Or.inr (by simp [h])
      · exact Or.inr (by simp [h])
    · by_cases h2 : k = k0
      · subst h2
        simp [alSet, h1] at h
        rcases h with h | h
        · exact Or.inl h.1
        · exact Or.inr (by simp [h])
      · simp [alSet, h1, h2] at h
        rcases h with h | h
        · exact Or.inr (by simp [h])
        · rcases ih h with h3 | h3
          · exact Or.inl h3
          · exact Or.inr (by simp [h3])

theorem listModify_get_self {α : Type} (l : List α) (n : Nat) (f : α → α) :
    (listModify l n f)[n]? = (l[n]?).map f := by
  induction l generalizing n with
  | nil => cases n <;> simp [listModify]
  | cons a t ih =>
    cases n with
    | zero => simp [listModify]
    | succ k => simpa [listModify] using ih k

theorem listModify_get_other {α : Type} (l : List α) (n k : Nat) (f : α → α)
    (h : k ≠ n) : (listModify l n f)[k]? = l[k]? := by
  induction l generalizing n k with
  | nil => cases n <;> simp [listModify]
  | cons a t ih =>
    cases n with
    | zero =>
      cases k with
      | zero => exact absurd rfl h
      | succ j => simp [listModify]
    | succ m =>
      cases k with
      | zero => simp [listModify]
      | succ j => simpa [listModify] using ih m j (fun hc => h (by rw [hc]))

theorem listModify_append_last {α : Type} (l : List α) (x : α) (f : α → α) :
    listModify (l ++ [x]) l.length f = l ++ [f x] := by
  induction l with
  | nil => simp [listModify]
  | cons a t ih => simp [listModify, ih]

theorem getTile_modifyTile_self (m : GameMap) (c : Coords) (f : Tile → Tile) :
    (m.modifyTile c f).getTile c = (m.getTile c).map f := by
  unfold GameMap.modifyTile GameMap.getTile
  by_cases h : m.posOf c < 0
  · simp [h, listGetI]
  · simp only [h, if_false, listGetI]
    have : (GameMap.posOf { m with tiles := listModify m.tiles (m.posOf c).toNat f } c) =
        m.posOf c := rfl
    rw [this]
    simp [h, listModify_get_self]

theorem getTile_modifyTile_other (m : GameMap) (c c' : Coords) (f : Tile → Tile)
    (h : m.posOf c' ≠ m.posOf c) :
    (m.modifyTile c f).getTile c' = m.getTile c' := by
  unfold GameMap.modifyTile GameMap.getTile
  by_cases h0 : m.posOf c < 0
  · simp [h0]
  · simp only [h0, if_false, listGetI]
    have hw : (GameMap.posOf { m with tiles := listModify m.tiles (m.posOf c).toNat f } c') =
        m.posOf c' := rfl
    rw [hw]
    by_cases h1 : m.posOf c' < 0
    · simp [h1]
    · have hne : (m.posOf c').toNat ≠ (m.posOf c).toNat := by
        intro hc
        exact h (by omega)
      simp [h1, listModify_get_other _ _ _ _ hne]

theorem modifyTile_width (m : GameMap) (c : Coords) (f : Tile → Tile) :
    (m.modifyTile c f).width = m.width := by
  unfold GameMap.modifyTile
  by_cases h : m.posOf c < 0 <;> simp [h]

/-! Claim C10. -/

/-- C10: on a tile whose per-civ visibility entry was never initialized,
`setVisibility(civ, true)` stores NaN (not a positive number), yet still
marks the tile discovered; `getCivTile` for that civ then returns the
discovered (non-visible) snapshot despite the light-on. -/
theorem c10_uninitialized_light_on (t : Tile) (civ : Int) (m : GameMap)
    (h : alGet t.visibleTo civ = none) :
    alGet (t.setVisibility civ true).visibleTo civ = some .nan ∧
    jsTruthy (alGet (t.setVisibility civ true).visibleTo civ) = false ∧
    (alGet (t.setVisibility civ true).discoveredBy civ).getD false = true ∧
    m.getCivTile civ (t.setVisibility civ true) =
      some ((t.setVisibility civ true).getDiscoveredData m.cities) := by
  unfold Tile.setVisibility
  by_cases hd : (alGet t.discoveredBy civ).getD false <;>
    simp [h, hd, jsInc, jsTruthy, alGet_alSet_self, GameMap.getCivTile]

/-- C10 witness at a freshly constructed tile. -/
theorem c10_witness :
    alGet (exTilePlains.setVisibility 0 true).visibleTo 0 = some .nan ∧
    jsTruthy (alGet (exTilePlains.setVisibility 0 true).visibleTo 0) = false ∧
    (alGet (exTilePlains.setVisibility 0 true).discoveredBy 0).getD false = true ∧
    exM3.getCivTile 0 (exTilePlains.setVisibility 0 true) =
      some ((exTilePlains.setVisibility 0 true).getDiscoveredData exM3.cities) :=
  c10_uninitialized_light_on exTilePlains 0 exM3 (by decide)

/-! Claim C6. -/

/-- C6: after every `Improvement.work()`, the stored value is
componentwise at most the store's capacity (storage is capped to
capacity as the final step of work). -/
theorem c6_work_storage_capped (imp : Improvement) :
    (imp.work).storage.food ≤ (imp.work).storage.capacity.food ∧
    (imp.work).storage.production ≤ (imp.work).storage.capacity.production := by
  obtain ⟨s, hs⟩ : ∃ s : ResourceStore, (imp.work).storage = s.capv := ⟨_, rfl⟩
  rw [hs]
  exact ⟨min_le_right _ _, min_le_right _ _⟩

/-! Claim C2. -/

/-- C2 counterexample: (a) a discovered tile with counter −1 (not > 0)
still gets the visible snapshot, because the code tests JS truthiness
rather than positivity; (b) the discovered snapshot carries no visible
field at all (undefined), not visible = false. -/
theorem c2_counterexample :
    (exM3.getCivTile 0 exTileVisNeg = some (exTileVisNeg.getVisibleData exM3.cities) ∧
     ¬((-1 : Int) > 0) ∧
     exTileVisNeg.getVisibleData exM3.cities ≠ exTileVisNeg.getDiscoveredData exM3.cities) ∧
    ((exM3.getCivTile 0 exTileDisc).map TileData.visible = some none) := by
  decide

/-- C2 amended: `getCivTile` returns null when undiscovered; the visible
snapshot when the per-civ counter is truthy (any nonzero number, not
only positive ones); otherwise the discovered snapshot, which is the
visible snapshot minus both the unit and the visible fields (the latter
is absent, not false). -/
theorem c2_amended (m : GameMap) (civ : Int) (t : Tile) :
    ((alGet t.discoveredBy civ).getD false = false → m.getCivTile civ t = none) ∧
    ((alGet t.discoveredBy civ).getD false = true →
      jsTruthy (alGet t.visibleTo civ) = true →
      m.getCivTile civ t = some (t.getVisibleData m.cities)) ∧
    ((alGet t.discoveredBy civ).getD false = true →
      jsTruthy (alGet t.visibleTo civ) = false →
      m.getCivTile civ t =
        some { t.getVisibleData m.cities with unit := none, visible := none }) := by
  refine ⟨fun h => ?_, fun h hv => ?_, fun h hv => ?_⟩
  · simp [GameMap.getCivTile, h]
  · simp [GameMap.getCivTile, h, hv]
  · simp [GameMap.getCivTile, h, hv]
    rfl

/-- C2 amended witness at a discovered, non-visible tile. -/
theorem c2_witness :
    exM3.getCivTile 0 exTileDisc =
      some { exTileDisc.getVisibleData exM3.cities with unit := none, visible := none } :=
  (c2_amended exM3 0 exTileDisc).2.2 (by decide) (by decide)

/-! Claim C3. -/

/-- C8 counterexample: `startConstructionAt` on an owned tile whose
improvement already has a live errand replaces the improvement with a
fresh worksite and starts a new CONSTRUCTION errand — the in-progress
RESEARCH errand is preempted and discarded. -/
theorem c8_counterexample :
    ((exM8.getTile exC00).bind (fun t => t.improvement.bind (·.errand))) =
      some exErrandOld ∧
    (((exM8.startConstructionAt exC00 "farm" 0).getTile exC00).bind
        (fun t => t.improvement.bind (·.errand))) =
      some ⟨.CONSTRUCTION, "farm", errandCostTable .CONSTRUCTION "farm",
            Yield.zero, false, none⟩ ∧
    (⟨.CONSTRUCTION, "farm", errandCostTable .CONSTRUCTION "farm",
      Yield.zero, false, none⟩ : WorkErrand) ≠ exErrandOld := by
  decide

/-- C8 amended: the unit-training and research handlers never preempt:
on a tile whose improvement has a live errand they start nothing and
leave the map unchanged apart from the unconditional trailing
tileUpdate.  The construction handler, however, replaces the improvement
(and with it any live errand) whenever the caller owns the tile. -/
theorem c8_amended (m : GameMap) (c : Coords) (ut kn : String)
    (ownerID : Int) (t : Tile) (imp : Improvement) (e : WorkErrand)
    (ht : m.getTile c = some t) (hi : t.improvement = some imp)
    (he : imp.errand = some e) :
    m.trainUnitAt c ut ownerID = m.tileUpdate c ∧
    m.researchKnowledgeAt c kn ownerID = m.tileUpdate c := by
  constructor
  · by_cases hcond : m.tileOwnerCiv t = some ownerID
    · simp [GameMap.trainUnitAt, ht, hcond, hi, he]
    · simp [GameMap.trainUnitAt, ht, hcond]
  · by_cases hcond : m.tileOwnerCiv t = some ownerID
    · simp [GameMap.researchKnowledgeAt, ht, hcond, hi, he]
    · simp [GameMap.researchKnowledgeAt, ht, hcond]

/-- C8 amended witness: concrete train and research refusals on the tile
with a live errand. -/
theorem c8_witness :
    exM8.trainUnitAt exC00 "settler" 0 = exM8.tileUpdate exC00 ∧
    exM8.researchKnowledgeAt exC00 "r1" 0 = exM8.tileUpdate exC00 :=
  c8_amended exM8 exC00 "settler" "r1" 0 exTileCampus exCampus exErrandOld
    (by decide) (by decide) (by decide)

/-! Lemmas about setVisibility and setTileOwner. -/

theorem setVisibility_fields (t : Tile) (civ : Int) (b : Bool) :
    (t.setVisibility civ b).ttype = t.ttype ∧
    (t.setVisibility civ b).tileHeight = t.tileHeight ∧
    (t.setVisibility civ b).baseYield = t.baseYield ∧
    (t.setVisibility civ b).unit = t.unit ∧
    (t.setVisibility civ b).improvement = t.improvement ∧
    (t.setVisibility civ b).owner = t.owner ∧
    (t.setVisibility civ b).knowledge = t.knowledge := by
  simp only [Tile.setVisibility]
  split <;> exact ⟨rfl, rfl, rfl, rfl, rfl, rfl, rfl⟩

theorem City.addTile_civID (ct : City) (co : Coords) : (ct.addTile co).civID = ct.civID := by
  simp only [City.addTile]
  split <;> rfl

theorem setTileOwner_no_tile (m : GameMap) (c : Coords) (idx : Nat)
    (h : m.getTile c = none) : m.setTileOwner c idx false = m := by
  simp [GameMap.setTileOwner, h]

theorem setTileOwner_owned (m : GameMap) (c : Coords) (idx : Nat) (t : Tile) (j : Nat)
    (ht : m.getTile c = some t) (hj : t.owner = some j) :
    m.setTileOwner c idx false = m := by
  simp [GameMap.setTileOwner, ht, hj]

theorem setTileOwner_unowned (m : GameMap) (c : Coords) (idx : Nat) (t : Tile)
    (ht : m.getTile c = some t) (hown : t.owner = none) :
    m.setTileOwner c idx false =
      (let civ := ((m.cities.get? idx).map (·.civID)).getD 0
       let m3 := m.modifyTile c (fun tt => { tt.setVisibility civ true with owner := some idx })
       { m3 with cities := listModify m3.cities idx (fun ct => ct.addTile c) }) := by
  simp [GameMap.setTileOwner, ht, hown]

theorem setTileOwner_false_width (m : GameMap) (c : Coords) (idx : Nat) :
    (m.setTileOwner c idx false).width = m.width := by
  cases ht : m.getTile c with
  | none => rw [setTileOwner_no_tile m c idx ht]
  | some t =>
    cases hown : t.owner with
    | some j => rw [setTileOwner_owned m c idx t j ht hown]
    | none =>
      rw [setTileOwner_unowned m c idx t ht hown]
      simp [modifyTile_width]

theorem setTileOwner_false_height (m : GameMap) (c : Coords) (idx : Nat) :
    (m.setTileOwner c idx false).height = m.height := by
  cases ht : m.getTile c with
  | none => rw [setTileOwner_no_tile m c idx ht]
  | some t =>
    cases hown : t.owner with
    | some j => rw [setTileOwner_owned m c idx t j ht hown]
    | none =>
      rw [setTileOwner_unowned m c idx t ht hown]
      simp [GameMap.modifyTile]
      split <;> rfl

theorem getTile_cities_irrel (m : GameMap) (cs : List City) (c : Coords) :
    ({ m with cities := cs } : GameMap).getTile c = m.getTile c := rfl

theorem setTileOwner_false_getTile_other (m : GameMap) (c c' : Coords) (idx : Nat)
    (hpos : m.posOf c' ≠ m.posOf c) :
    (m.setTileOwner c idx false).getTile c' = m.getTile c' := by
  cases ht : m.getTile c with
  | none => rw [setTileOwner_no_tile m c idx ht]
  | some t =>
    cases hown : t.owner with
    | some j => rw [setTileOwner_owned m c idx t j ht hown]
    | none =>
      rw [setTileOwner_unowned m c idx t ht hown]
      simp only []
      rw [getTile_cities_irrel]
      exact getTile_modifyTile_other m c c' _ hpos

theorem setTileOwner_false_cities_civ (m : GameMap) (c : Coords) (idx : Nat) (j : Nat) :
    ((m.setTileOwner c idx false).cities.get? j).map (·.civID) =
      (m.cities.get? j).map (·.civID) := by
  cases ht : m.getTile c with
  | none => rw [setTileOwner_no_tile m c idx ht]
  | some t =>
    cases hown : t.owner with
    | some j2 => rw [setTileOwner_owned m c idx t j2 ht hown]
    | none =>
      rw [setTileOwner_unowned m c idx t ht hown]
      simp only [GameMap.modifyTile]
      by_cases hp : m.posOf c < 0 <;> simp only [hp, if_true, if_false]
      all_goals
        by_cases hji : j = idx
        · subst hji
          simp only [List.get?_eq_getElem?]
          rw [show (listModify m.cities j (fun ct => ct.addTile c))[j]? =
              (m.cities[j]?).map (fun ct => ct.addTile c) from listModify_get_self _ _ _]
          cases m.cities[j]? <;> simp [City.addTile_civID]
        · simp only [List.get?_eq_getElem?]
          rw [listModify_get_other _ _ _ _ hji]

/-! Claim C1. -/

theorem nodup_concat {l : List Int} {p : Int} (h : l.Nodup) (hp : p ∉ l) :
    (l ++ [p]).Nodup := by
  simp [List.nodup_append, h, hp]

theorem gnr_mono (m : GameMap) : ∀ (fuel : Nat) (c : Coords) (r : Int)
    (f : Option (Tile → Coords → Bool)) (st : NbrState) (x : Coords),
    x ∈ st.coordList → x ∈ (m.gnr fuel c r f st).coordList := by
  intro fuel
  induction fuel with
  | zero => intro c r f st x hx; simpa [GameMap.gnr] using hx
  | succ k ih =>
    intro c r f st x hx
    simp only [GameMap.gnr]
    cases hgt : m.getTile c with
    | none => simpa using hx
    | some tile =>
      by_cases hr : r < 0
      · simp [hr, hx]
      · simp only [hr, if_false]
        refine foldl_inv _ (fun acc : NbrState => x ∈ acc.coordList) _ (fun b a hb => ?_) _ ?_
        · by_cases hg : nbrGuard b.rangeMap (m.posOf a) r
          · simpa [hg] using ih a (r - 1) f b x hb
          · simpa [hg] using hb
        · by_cases hmem : m.posOf c ∈ st.tileSet
          · simpa [hmem] using hx
          · cases f with
            | none =>
              simp only [hmem, if_false]
              exact List.mem_append_left _ hx
            | some ff =>
              by_cases hk : ff tile c
              · simp only [hmem, if_false, hk, if_true]
                exact List.mem_append_left _ hx
              · simpa [hmem, hk] using hx

theorem gnr_append (m : GameMap) : ∀ (fuel : Nat) (c : Coords) (r : Int)
    (f : Option (Tile → Coords → Bool)) (st : NbrState),
    ∃ ext, (m.gnr fuel c r f st).coordList = st.coordList ++ ext := by
  intro fuel
  induction fuel with
  | zero => intro c r f st; exact ⟨[], by simp [GameMap.gnr]⟩
  | succ k ih =>
    intro c r f st
    simp only [GameMap.gnr]
    cases hgt : m.getTile c with
    | none => exact ⟨[], by simp⟩
    | some tile =>
      by_cases hr : r < 0
      · exact ⟨[], by simp [hr]⟩
      · simp only [hr, if_false]
        refine foldl_inv _ (fun acc : NbrState => ∃ e, acc.coordList = st.coordList ++ e) _
          (fun b a hb => ?_) _ ?_
        · obtain ⟨e, he⟩ := hb
          by_cases hg : nbrGuard b.rangeMap (m.posOf a) r
          · obtain ⟨e2, he2⟩ := ih a (r - 1) f b
            exact ⟨e ++ e2, by simp [hg, he2, he]⟩
          · exact ⟨e, by simpa [hg] using he⟩
        · by_cases hmem : m.posOf c ∈ st.tileSet
          · exact ⟨[], by simp [hmem]⟩
          · cases f with
            | none => exact ⟨[c], by simp [hmem]⟩
            | some ff =>
              by_cases hk : ff tile c
              · exact ⟨[c], by simp [hmem, hk]⟩
              · exact ⟨[], by simp [hmem, hk]⟩

theorem gnr_positions (m : GameMap) : ∀ (fuel : Nat) (c : Coords) (r : Int)
    (f : Option (Tile → Coords → Bool)) (st : NbrState),
    st.tileSet = st.coordList.map m.posOf → st.tileSet.Nodup →
    (m.gnr fuel c r f st).tileSet = (m.gnr fuel c r f st).coordList.map m.posOf ∧
    (m.gnr fuel c r f st).tileSet.Nodup := by
  intro fuel
  induction fuel with
  | zero => intro c r f st h1 h2; simpa [GameMap.gnr] using ⟨h1, h2⟩
  | succ k ih =>
    intro c r f st h1 h2
    simp only [GameMap.gnr]
    cases hgt : m.getTile c with
    | none => simpa using ⟨h1, h2⟩
    | some tile =>
      by_cases hr : r < 0
      · simpa [hr] using ⟨h1, h2⟩
      · simp only [hr, if_false]
        refine foldl_inv _
          (fun acc : NbrState => acc.tileSet = acc.coordList.map m.posOf ∧ acc.tileSet.Nodup) _
          (fun b a hb => ?_) _ ?_
        · by_cases hg : nbrGuard b.rangeMap (m.posOf a) r
          · simpa [hg] using ih a (r - 1) f b hb.1 hb.2
          · simpa [hg] using hb
        · by_cases hmem : m.posOf c ∈ st.tileSet
          · simpa [hmem] using ⟨h1, h2⟩
          · have hstep : (st.tileSet ++ [m.posOf c] =
                (st.coordList ++ [c]).map m.posOf) ∧ (st.tileSet ++ [m.posOf c]).Nodup := by
              constructor
              · simp [h1]
              · exact nodup_concat h2 hmem
            cases f with
            | none => simpa [hmem] using hstep
            | some ff =>
              by_cases hk : ff tile c
              · simpa [hmem, hk] using hstep
              · simpa [hmem, hk] using ⟨h1, h2⟩

/-- The center coord is always the first member of its own recursive
neighborhood (added before any recursion, with no filter). -/
theorem mem_self_getNeighborsCoords (m : GameMap) (c : Coords) (r : Int) (t : Tile)
    (ht : m.getTile c = some t) (hr : 0 ≤ r) :
    c ∈ m.getNeighborsCoords c r none := by
  unfold GameMap.getNeighborsCoords
  simp only [GameMap.gnr, ht]
  have hr2 : ¬(r < 0) := by omega
  simp only [hr2, if_false]
  refine foldl_inv _ (fun acc : NbrState => c ∈ acc.coordList) _ (fun b a hb => ?_) _ ?_
  · by_cases hg : nbrGuard b.rangeMap (m.posOf a) r
    · simpa [hg] using gnr_mono m _ a (r - 1) none b c hb
    · simpa [hg] using hb
  · simp

theorem tileUpdate_getTile (m : GameMap) (c c' : Coords) :
    (m.tileUpdate c).getTile c' = m.getTile c' := rfl

theorem tileUpdate_width (m : GameMap) (c : Coords) :
    (m.tileUpdate c).width = m.width := rfl

theorem tileUpdate_cities (m : GameMap) (c : Coords) :
    (m.tileUpdate c).cities = m.cities := rfl

theorem posOf_width_eq (m1 m2 : GameMap) (x : Coords) (h : m1.width = m2.width) :
    m1.posOf x = m2.posOf x := by
  unfold GameMap.posOf
  rw [h]

theorem canSettleOn_parts (t : Tile) (h : canSettleOn t = true) :
    t.owner = none ∧ canBuildOn t = true := by
  simp only [canSettleOn, Bool.and_eq_true, decide_eq_true_eq,
    Option.isNone_iff_eq_none] at h
  simp only [canBuildOn, Bool.and_eq_true, decide_eq_true_eq]
  tauto

theorem getNeighborsCoords_cons (m : GameMap) (c : Coords) (r : Int) (t : Tile)
    (ht : m.getTile c = some t) (hr : 0 ≤ r) :
    ∃ ext, m.getNeighborsCoords c r none = c :: ext := by
  unfold GameMap.getNeighborsCoords
  simp only [GameMap.gnr, ht]
  have hr2 : ¬(r < 0) := by omega
  simp only [hr2, if_false]
  refine foldl_inv _ (fun acc : NbrState => ∃ e, acc.coordList = [c] ++ e) _
    (fun b a hb => ?_) _ ⟨[], by simp⟩
  obtain ⟨e, he⟩ := hb
  by_cases hg : nbrGuard b.rangeMap (m.posOf a) r
  · obtain ⟨e2, he2⟩ := gnr_append m r.toNat a (r - 1) none b
    exact ⟨e ++ e2, by simp [hg, he2, he]⟩
  · exact ⟨e, by simpa [hg] using he⟩

theorem getNeighborsCoords_pos_nodup (m : GameMap) (c : Coords) (r : Int)
    (f : Option (Tile → Coords → Bool)) :
    ((m.getNeighborsCoords c r f).map m.posOf).Nodup := by
  unfold GameMap.getNeighborsCoords
  have h := gnr_positions m (r.toNat + 1) c r f ⟨[], [], []⟩ (by simp) (by simp)
  rw [← h.1]
  exact h.2

/-- Invariant preservation along the settle loop over coords whose
positions differ from the center. -/
theorem settle_fold_pres (cityIdx : Nat) (c : Coords) (t2 : Tile) (civ : Int)
    (W : Int) :
    ∀ (ext : List Coords) (mm : GameMap),
    mm.width = W →
    (∀ x ∈ ext, mm.posOf x ≠ mm.posOf c) →
    mm.getTile c = some t2 →
    ((mm.cities.get? cityIdx).map (·.civID)) = some civ →
    (ext.foldl (fun acc nb => (acc.setTileOwner nb cityIdx false).tileUpdate nb) mm).width = W ∧
    (ext.foldl (fun acc nb => (acc.setTileOwner nb cityIdx false).tileUpdate nb) mm).getTile c = some t2 ∧
    (((ext.foldl (fun acc nb => (acc.setTileOwner nb cityIdx false).tileUpdate nb) mm).cities.get?
        cityIdx).map (·.civID)) = some civ := by
  intro ext
  induction ext with
  | nil => intro mm hW _ hgt hciv; exact ⟨hW, hgt, hciv⟩
  | cons x rest ih =>
    intro mm hW hpos hgt hciv
    simp only [List.foldl_cons]
    have hx : mm.posOf c ≠ mm.posOf x := fun hc => (hpos x (by simp)) hc.symm
    have hW2 : ((mm.setTileOwner x cityIdx false).tileUpdate x).width = W := by
      rw [tileUpdate_width, setTileOwner_false_width, hW]
    have hgt2 : ((mm.setTileOwner x cityIdx false).tileUpdate x).getTile c = some t2 := by
      rw [tileUpdate_getTile, setTileOwner_false_getTile_other mm x c cityIdx hx, hgt]
    have hciv2 : ((((mm.setTileOwner x cityIdx false).tileUpdate x).cities.get?
        cityIdx).map (·.civID)) = some civ := by
      rw [tileUpdate_cities, setTileOwner_false_cities_civ, hciv]
    refine ih _ hW2 (fun y hy => ?_) hgt2 hciv2
    have h1 : ((mm.setTileOwner x cityIdx false).tileUpdate x).posOf y = mm.posOf y :=
      posOf_width_eq _ _ _ (by rw [hW2, hW])
    have h2 : ((mm.setTileOwner x cityIdx false).tileUpdate x).posOf c = mm.posOf c :=
      posOf_width_eq _ _ _ (by rw [hW2, hW])
    rw [h1, h2]
    exact hpos y (by simp [hy])

/-! Claim C9. -/

theorem modifyTile_cities (m : GameMap) (c : Coords) (f : Tile → Tile) :
    (m.modifyTile c f).cities = m.cities := by
  by_cases h : m.posOf c < 0 <;> simp [GameMap.modifyTile, h]

/-- C9: with no filter, the recursive neighborhood of radius r ≥ 1
always includes the center coord itself; consequently a successful
`settleCityAt(c)` leaves the center tile owned by the newly created
city (the last city of the arena, carrying the settling civ) and
holding a settlement improvement. -/
theorem c9_center_owned_and_settled :
    (∀ (m : GameMap) (c : Coords) (r : Int) (t : Tile),
        m.getTile c = some t → 1 ≤ r → c ∈ m.getNeighborsCoords c r none) ∧
    (∀ (m : GameMap) (c : Coords) (name : String) (civ : Int) (m2 : GameMap) (t : Tile),
        m.getTile c = some t → m.settleCityAt c name civ = (true, m2) →
        ∃ t3, m2.getTile c = some t3 ∧
          t3.owner = some m.cities.length ∧
          ((m2.cities.get? m.cities.length).map (·.civID)) = some civ ∧
          (t3.improvement.map (·.itype)) = some "settlement") := by
  constructor
  · intro m c r t ht hr
    exact mem_self_getNeighborsCoords m c r t ht (by omega)
  · intro m c name civ m2 t ht hst
    unfold GameMap.settleCityAt at hst
    rw [ht] at hst
    by_cases hcs : canSettleOn t
    swap
    · simp [hcs] at hst
    have hown : t.owner = none := (canSettleOn_parts t hcs).1
    have hcb : canBuildOn t = true := (canSettleOn_parts t hcs).2
    simp only [hcs, Bool.not_true, Bool.false_eq_true, if_false, Prod.mk.injEq,
      true_and] at hst
    set city : City := ⟨c, name, civ, []⟩ with hcitydef
    set cityIdx := m.cities.length with hidx
    set m1 : GameMap := { m with cities := m.cities ++ [city] } with hm1def
    have hgt1 : m1.getTile c = some t := ht
    obtain ⟨ext, hext⟩ := getNeighborsCoords_cons m1 c 1 t hgt1 (by omega)
    rw [hext] at hst
    simp only [List.foldl_cons] at hst
    have hnd := getNeighborsCoords_pos_nodup m1 c 1 none
    rw [hext] at hnd
    simp only [List.map_cons, List.nodup_cons, List.mem_map] at hnd
    have hxne : ∀ x ∈ ext, m1.posOf x ≠ m1.posOf c := by
      intro x hx heq
      exact hnd.1 ⟨x, hx, heq⟩
    have hcity1 : m1.cities.get? cityIdx = some city := by
      rw [hm1def, hidx]
      exact List.get?_concat_length _ _
    have hciv0 : ((m1.cities.get? cityIdx).map (·.civID)).getD 0 = civ := by
      rw [hcity1]; rfl
    set t2 : Tile := { t.setVisibility civ true with owner := some cityIdx } with ht2def
    set mm1 : GameMap := (m1.setTileOwner c cityIdx false).tileUpdate c with hmm1def
    have hA : mm1.getTile c = some t2 := by
      rw [hmm1def, tileUpdate_getTile, setTileOwner_unowned m1 c cityIdx t hgt1 hown]
      simp only [hciv0]
      rw [getTile_cities_irrel, getTile_modifyTile_self, hgt1]
      rfl
    have hB : mm1.width = m.width := by
      rw [hmm1def, tileUpdate_width, setTileOwner_false_width]
    have hC : ((mm1.cities.get? cityIdx).map (·.civID)) = some civ := by
      rw [hmm1def, tileUpdate_cities, setTileOwner_unowned m1 c cityIdx t hgt1 hown]
      simp only [hciv0, modifyTile_cities, List.get?_eq_getElem?]
      rw [hidx, listModify_append_last, List.getElem?_concat_length]
      rfl
    have hxne2 : ∀ x ∈ ext, mm1.posOf x ≠ mm1.posOf c := by
      intro x hx
      rw [posOf_width_eq mm1 m1 x (by rw [hB]),
          posOf_width_eq mm1 m1 c (by rw [hB])]
      exact hxne x hx
    have hfold := settle_fold_pres cityIdx c t2 civ m.width ext mm1 hB hxne2 hA hC
    set mfold := ext.foldl (fun acc nb => (acc.setTileOwner nb cityIdx false).tileUpdate nb) mm1
      with hfolddef
    have ht2ty : t2.ttype = t.ttype := (setVisibility_fields t civ true).1
    have hcb2 : canBuildOn t2 = true := by
      have hb : canBuildOn t2 = canBuildOn t := by
        unfold canBuildOn
        rw [ht2ty]
      rw [hb, hcb]
    have howner2 : GameMap.tileOwnerCiv mfold t2 = some civ := by
      unfold GameMap.tileOwnerCiv
      have ho : t2.owner = some cityIdx := rfl
      rw [ho]
      simpa using hfold.2.2
    have hbuild : mfold.buildImprovementAt c "settlement" civ =
        (mfold.modifyTile c (fun tt =>
          { tt with improvement := some (Improvement.new "settlement" tt.baseYield) })).tileUpdate c := by
      unfold GameMap.buildImprovementAt
      rw [hfold.2.1]
      simp only [howner2, ne_eq, not_true_eq_false, if_false, hcb2, Bool.not_true,
        Bool.false_eq_true]
    refine ⟨{ t2 with improvement := some (Improvement.new "settlement" t2.baseYield) },
      ?_, rfl, ?_, rfl⟩
    · rw [← hst, hbuild, tileUpdate_getTile, getTile_modifyTile_self, hfold.2.1]
      rfl
    · rw [← hst, hbuild, tileUpdate_cities, modifyTile_cities]
      exact hfold.2.2

/-- C9 witness: settling on a concrete 2×2 plains map. -/
theorem c9_witness :
    exC00 ∈ exM9.getNeighborsCoords exC00 1 none ∧
    (∃ t3, (exM9.settleCityAt exC00 "delta" 0).2.getTile exC00 = some t3 ∧
      t3.owner = some exM9.cities.length ∧
      (((exM9.settleCityAt exC00 "delta" 0).2.cities.get? exM9.cities.length).map
        (·.civID)) = some 0 ∧
      (t3.improvement.map (·.itype)) = some "settlement") :=
  ⟨c9_center_owned_and_settled.1 exM9 exC00 1 exTilePlains (by decide) (by decide),
   c9_center_owned_and_settled.2 exM9 exC00 "delta" 0
     (exM9.settleCityAt exC00 "delta" 0).2 exTilePlains (by decide) (by decide)⟩

/-! Claim C7. -/

theorem JDist.ltb_leb_trans {a b r : JDist} (h1 : JDist.ltb a b = true)
    (h2 : JDist.leb b r = true) : JDist.leb a r = true := by
  cases a <;> cases b <;> cases r <;>
    simp_all [JDist.ltb, JDist.leb] <;> omega

/-- The parent-map invariant of the path-tree search: every parent entry
has a recorded distance within range. -/
def PTInv (range : Int) (st : PTState) : Prop :=
  ∀ p q, (p, q) ∈ st.paths →
    ∃ d, alGet st.dst p = some d ∧ JDist.leb d (.fin range) = true

theorem ptRelax_inv (m : GameMap) (range : Int) (mode : MovementClass)
    (atPos : Coords) (st : PTState) (adjPos : Coords) (hinv : PTInv range st) :
    PTInv range (m.ptRelax range mode atPos st adjPos) := by
  unfold GameMap.ptRelax
  cases hgt : m.getTile adjPos with
  | none => exact hinv
  | some tile =>
    simp only []
    set movementCost : JDist :=
      (if mode = .AIR then .fin 1
       else match tile.movementCost with
            | some mc => if (if mode = .LAND then mc.1 else mc.2) = 0 then .inf
                         else .fin (if mode = .LAND then mc.1 else mc.2)
            | none => .inf) with hmc
    set pAdj := m.posOf adjPos with hpadj
    set newd := ((alGet st.dst (m.posOf atPos)).getD .inf).add movementCost with hnewd
    by_cases himp : (match alGet st.dst pAdj with
      | none => true
      | some old => JDist.ltb newd old) = true
    swap
    · simp only [himp, Bool.false_eq_true, if_false]
      exact hinv
    by_cases hle : JDist.leb newd (.fin range) = true
    · simp only [himp, if_true, hle]
      intro p q hmem
      by_cases hp : p = pAdj
      · subst hp
        exact ⟨newd, alGet_alSet_self _ _ _, hle⟩
      · rcases mem_alSet _ _ _ _ _ hmem with h | h
        · exact absurd h hp
        · obtain ⟨d, hd, hdle⟩ := hinv p q h
          exact ⟨d, by rw [alGet_alSet_ne _ _ _ _ hp]; exact hd, hdle⟩
    · simp only [himp, if_true, hle, Bool.false_eq_true, if_false]
      intro p q hmem
      by_cases hp : p = pAdj
      · subst hp
        obtain ⟨d, hd, hdle⟩ := hinv pAdj q hmem
        rw [hd] at himp
        exact absurd (JDist.ltb_leb_trans himp hdle) hle
      · obtain ⟨d, hd, hdle⟩ := hinv p q hmem
        exact ⟨d, by rw [alGet_alSet_ne _ _ _ _ hp]; exact hd, hdle⟩

theorem ptStep_inv (m : GameMap) (range : Int) (mode : MovementClass)
    (atPos : Coords) (st : PTState) (hinv : PTInv range st) :
    PTInv range (m.ptStep range mode atPos st) := by
  unfold GameMap.ptStep
  exact foldl_inv _ (PTInv range) _ (fun b a hb => ptRelax_inv m range mode atPos b a hb)
    st hinv

theorem ptRun_inv (m : GameMap) (range : Int) (mode : MovementClass) :
    ∀ (fuel : Nat) (st st' : PTState),
    m.ptRun range mode fuel st = some st' → PTInv range st → PTInv range st' := by
  intro fuel
  induction fuel with
  | zero =>
    intro st st' hrun hinv
    unfold GameMap.ptRun at hrun
    cases hq : st.queue with
    | nil =>
      rw [hq] at hrun
      simp at hrun
      rw [← hrun]
      exact hinv
    | cons a rest => rw [hq] at hrun; simp at hrun
  | succ k ih =>
    intro st st' hrun hinv
    unfold GameMap.ptRun at hrun
    cases hq : st.queue with
    | nil =>
      rw [hq] at hrun
      simp at hrun
      rw [← hrun]
      exact hinv
    | cons a rest =>
      rw [hq] at hrun
      simp only [] at hrun
      refine ih _ _ hrun (ptStep_inv m range mode a _ ?_)
      exact hinv

/-- C5 amended: getPathTree's parent map includes only tiles whose
recorded distance is within range; the distance map itself additionally
records out-of-range relaxation candidates (in particular Infinity on
impassable tiles adjacent to reached ones), which never enter the parent
map. -/
theorem c5_amended (m : GameMap) (src : Coords) (range : Int)
    (mode : MovementClass) (fuel : Nat) (P : List (Int × Coords))
    (D : List (Int × JDist))
    (h : m.getPathTree src range mode fuel = some (P, D)) :
    ∀ p q, (p, q) ∈ P → ∃ d, alGet D p = some d ∧ JDist.leb d (.fin range) = true := by
  unfold GameMap.getPathTree at h
  cases hrun : m.ptRun range mode fuel ⟨[src], [(m.posOf src, .fin 0)], []⟩ with
  | none => rw [hrun] at h; simp at h
  | some st =>
    rw [hrun] at h
    simp only [Option.map_some', Option.some.injEq, Prod.mk.injEq] at h
    have hinv : PTInv range st :=
      ptRun_inv m range mode fuel _ st hrun (by intro p q hmem; simp at hmem)
    intro p q hmem
    rw [← h.1] at hmem
    rw [← h.2]
    exact hinv p q hmem

set_option maxHeartbeats 4000000 in
/-- C5 counterexample: on the mountain-ring map, the returned dist map
does contain a ring tile — the mountain at (2,0), adjacent to a reached
plains tile — with distance Infinity, which is not ≤ range; so the
returned pair does not include only tiles with dist ≤ range. -/
theorem c5_counterexample :
    exM5.getTile ⟨2, 0⟩ = some exMountain ∧
    exM5.posOf ⟨2, 0⟩ = 2 ∧
    exPT5 = some (exP5, exD5) ∧
    alGet exD5 2 = some .inf ∧
    JDist.leb .inf (.fin 10) = false := by
  decide

set_option maxHeartbeats 4000000 in
/-- C5 amended witness: a concrete parent entry of the ring-map search
and its in-range distance. -/
theorem c5_witness :
    ∃ d, alGet exD5 6 = some d ∧ JDist.leb d (.fin 10) = true :=
  c5_amended exM5 exC22 10 .LAND ptFuel exP5 exD5 (by decide) 6 exC22 (by decide)

/-! Claim C4: serialization round trip. -/

theorem exportI_importI (d : ImprovementExport) :
    (Improvement.importI d).exportI = d := by
  obtain ⟨ty, pl, nat, yv, ⟨sf, sp, cap⟩, er⟩ := d
  simp [Improvement.importI, Improvement.exportI, ResourceStore.new, ResourceStore.incr]

theorem exportT_importT (d : TileExport) : (Tile.importT d).exportT = d := by
  obtain ⟨ty, th, by0, u, imp, db, kn⟩ := d
  cases imp <;> simp [Tile.importT, Tile.exportT, exportI_importI]

theorem exportTr_importTr (d : TraderExport) : (Trader.importTr d).exportTr = d := by
  obtain ⟨a, b, c, e, f, g, h⟩ := d
  rfl

theorem exportC_importC (d : CityExport) : (City.importC d).exportC = d := by
  obtain ⟨a, b, c, e⟩ := d
  rfl

theorem listModify_id_of {α : Type} :
    ∀ (l : List α) (i : Nat) (f : α → α),
    (∀ x, l[i]? = some x → f x = x) → listModify l i f = l := by
  intro l
  induction l with
  | nil => intro i f _; cases i <;> rfl
  | cons a t ih =>
    intro i f hf
    cases i with
    | zero =>
      simp only [listModify]
      rw [hf a (by simp)]
    | succ k =>
      simp only [listModify]
      rw [ih k f (fun x hx => hf x (by simpa using hx))]

theorem listModify_map_invariant {α β : Type} :
    ∀ (l : List α) (n : Nat) (f : α → α) (g : α → β),
    (∀ x, l[n]? = some x → g (f x) = g x) →
    (listModify l n f).map g = l.map g := by
  intro l
  induction l with
  | nil => intro n f g _; cases n <;> rfl
  | cons a t ih =>
    intro n f g hg
    cases n with
    | zero =>
      simp only [listModify, List.map_cons]
      rw [hg a (by simp)]
    | succ k =>
      simp only [listModify, List.map_cons]
      rw [ih k f g (fun x hx => hg x (by simpa using hx))]

/-- Turning visibility on for an already-discovered civ changes nothing
the tile export carries (only the non-persisted counter and owner). -/
theorem exportT_setVisibility_owner (t : Tile) (civ : Int) (o : Option Nat)
    (hd : (alGet t.discoveredBy civ).getD false = true) :
    Tile.exportT { t.setVisibility civ true with owner := o } = t.exportT := by
  simp [Tile.setVisibility, hd, Tile.exportT]

theorem getTile_export_corr (m mm : GameMap) (co : Coords) (t : Tile)
    (hw : mm.width = m.width)
    (hts : mm.tiles.map Tile.exportT = m.tiles.map Tile.exportT)
    (ht : mm.getTile co = some t) :
    ∃ t0, m.getTile co = some t0 ∧ t0.exportT = t.exportT := by
  unfold GameMap.getTile listGetI at ht ⊢
  rw [posOf_width_eq m mm co hw.symm]
  by_cases hp : mm.posOf co < 0
  · rw [if_pos hp] at ht
    exact absurd ht (by simp)
  · rw [if_neg hp] at ht ⊢
    rw [List.get?_eq_getElem?] at ht
    simp only [List.get?_eq_getElem?]
    have h1 : (mm.tiles.map Tile.exportT)[(mm.posOf co).toNat]? =
        (m.tiles.map Tile.exportT)[(mm.posOf co).toNat]? := by rw [hts]
    rw [List.getElem?_map, List.getElem?_map, ht] at h1
    cases hm : m.tiles[(mm.posOf co).toNat]? with
    | none => rw [hm] at h1; simp at h1
    | some t0 =>
      rw [hm] at h1
      simp only [Option.map_some', Option.some.injEq] at h1
      exact ⟨t0, rfl, h1.symm⟩

/-- The well-formedness check for the round trip: every owned coord of
every city is either off-map or already discovered by the owning civ —
the state `setTileOwner` itself establishes. -/
def mapWFb (m : GameMap) : Bool :=
  m.cities.all (fun ci => ci.tiles.all (fun co =>
    match m.getTile co with
    | some t => (alGet t.discoveredBy ci.civID).getD false
    | none => true))

theorem mapWFb_spec (m : GameMap) (h : mapWFb m = true) :
    ∀ ci ∈ m.cities, ∀ co ∈ ci.tiles, ∀ t, m.getTile co = some t →
      (alGet t.discoveredBy ci.civID).getD false = true := by
  intro ci hci co hco t ht
  simp only [mapWFb, List.all_eq_true] at h
  have h2 := h ci hci co hco
  rw [ht] at h2
  exact h2

theorem City.addTile_mem (ci : City) (co : Coords) (h : co ∈ ci.tiles) :
    ci.addTile co = ci := by
  simp [City.addTile, h]

theorem modifyTile_height (m : GameMap) (c : Coords) (f : Tile → Tile) :
    (m.modifyTile c f).height = m.height := by
  by_cases h : m.posOf c < 0 <;> simp [GameMap.modifyTile, h]

theorem setTileOwner_unowned2 (m : GameMap) (c : Coords) (idx : Nat) (t : Tile)
    (civ : Int) (ht : m.getTile c = some t) (hown : t.owner = none)
    (hciv : ((m.cities.get? idx).map (·.civID)).getD 0 = civ) :
    m.setTileOwner c idx false =
      { m.modifyTile c (fun tt => { tt.setVisibility civ true with owner := some idx }) with
          cities := listModify m.cities idx (fun ct => ct.addTile c) } := by
  rw [setTileOwner_unowned m c idx t ht hown]
  simp only [hciv, modifyTile_cities]

theorem import_city_fold (m : GameMap)
    (hwf : ∀ ci ∈ m.cities, ∀ co ∈ ci.tiles, ∀ t, m.getTile co = some t →
      (alGet t.discoveredBy ci.civID).getD false = true)
    (ci : City) (hci : ci ∈ m.cities) (idx : Nat) :
    ∀ (cos : List Coords), (∀ co ∈ cos, co ∈ ci.tiles) →
    ∀ (mm : GameMap),
    mm.width = m.width → mm.height = m.height →
    mm.tiles.map Tile.exportT = m.tiles.map Tile.exportT →
    mm.cities.get? idx = some ci →
    (cos.foldl (fun acc co => acc.setTileOwner co idx false) mm).width = m.width ∧
    (cos.foldl (fun acc co => acc.setTileOwner co idx false) mm).height = m.height ∧
    (cos.foldl (fun acc co => acc.setTileOwner co idx false) mm).tiles.map Tile.exportT =
      m.tiles.map Tile.exportT ∧
    (cos.foldl (fun acc co => acc.setTileOwner co idx false) mm).cities = mm.cities := by
  intro cos
  induction cos with
  | nil => intro _ mm h1 h2 h3 h4; exact ⟨h1, h2, h3, rfl⟩
  | cons co rest ih =>
    intro hcos mm h1 h2 h3 h4
    simp only [List.foldl_cons]
    cases hgt : mm.getTile co with
    | none =>
      rw [setTileOwner_no_tile mm co idx hgt]
      exact ih (fun x hx => hcos x (by simp [hx])) mm h1 h2 h3 h4
    | some t =>
      cases hown : t.owner with
      | some j =>
        rw [setTileOwner_owned mm co idx t j hgt hown]
        exact ih (fun x hx => hcos x (by simp [hx])) mm h1 h2 h3 h4
      | none =>
        have hciv : ((mm.cities.get? idx).map (·.civID)).getD 0 = ci.civID := by
          rw [h4]; rfl
        rw [setTileOwner_unowned2 mm co idx t ci.civID hgt hown hciv]
        have hp : ¬(mm.posOf co < 0) := by
          intro hp
          unfold GameMap.getTile listGetI at hgt
          rw [if_pos hp] at hgt
          simp at hgt
        have hdisc : (alGet t.discoveredBy ci.civID).getD false = true := by
          obtain ⟨t0, ht0, hexp⟩ := getTile_export_corr m mm co t h1 h3 hgt
          have hdb : t0.discoveredBy = t.discoveredBy :=
            congrArg TileExport.discoveredBy hexp
          rw [← hdb]
          exact hwf ci hci co (hcos co (by simp)) t0 ht0
        have htmod : (mm.modifyTile co (fun tt =>
            { tt.setVisibility ci.civID true with owner := some idx })).tiles.map
            Tile.exportT = m.tiles.map Tile.exportT := by
          unfold GameMap.modifyTile
          rw [if_neg hp]
          simp only []
          rw [listModify_map_invariant]
          · exact h3
          · intro x hx
            have hxt : x = t := by
              unfold GameMap.getTile listGetI at hgt
              rw [if_neg hp, List.get?_eq_getElem?] at hgt
              rw [hx] at hgt
              exact (Option.some.injEq _ _ ▸ hgt)
            rw [hxt]
            exact exportT_setVisibility_owner t ci.civID (some idx) hdisc
        have hcities : listModify mm.cities idx (fun ct => ct.addTile co) = mm.cities := by
          apply listModify_id_of
          intro x hx
          have hxc : x = ci := by
            rw [List.get?_eq_getElem?] at h4
            rw [hx] at h4
            exact (Option.some.injEq _ _ ▸ h4)
          rw [hxc]
          exact City.addTile_mem ci co (hcos co (by simp))
        have happly := ih (fun x hx => hcos x (by simp [hx]))
          { mm.modifyTile co (fun tt => { tt.setVisibility ci.civID true with owner := some idx })
              with cities := listModify mm.cities idx (fun ct => ct.addTile co) }
          (by
            show (mm.modifyTile co (fun tt =>
              { tt.setVisibility ci.civID true with owner := some idx })).width = m.width
            rw [modifyTile_width]
            exact h1)
          (by
            show (mm.modifyTile co (fun tt =>
              { tt.setVisibility ci.civID true with owner := some idx })).height = m.height
            rw [modifyTile_height]
            exact h2)
          htmod
          (by
            show (listModify mm.cities idx (fun ct => ct.addTile co)).get? idx = some ci
            rw [hcities]
            exact h4)
        refine ⟨happly.1, happly.2.1, happly.2.2.1, happly.2.2.2.trans ?_⟩
        show listModify mm.cities idx (fun ct => ct.addTile co) = mm.cities
        exact hcities

theorem importC_exportC (ci : City) : City.importC (City.exportC ci) = ci := by
  cases ci
  rfl

theorem import_cities_fold (m : GameMap)
    (hwf : ∀ ci ∈ m.cities, ∀ co ∈ ci.tiles, ∀ t, m.getTile co = some t →
      (alGet t.discoveredBy ci.civID).getD false = true) :
    ∀ (rest : List City), (∀ ci ∈ rest, ci ∈ m.cities) →
    ∀ (mm : GameMap),
    mm.width = m.width → mm.height = m.height →
    mm.tiles.map Tile.exportT = m.tiles.map Tile.exportT →
    ((rest.map City.exportC).foldl
      (fun mm cd =>
        let city := City.importC cd
        let idx := mm.cities.length
        let mm1 := { mm with cities := mm.cities ++ [city] }
        city.tiles.foldl (fun acc co => acc.setTileOwner co idx false) mm1)
      mm).width = m.width ∧
    ((rest.map City.exportC).foldl
      (fun mm cd =>
        let city := City.importC cd
        let idx := mm.cities.length
        let mm1 := { mm with cities := mm.cities ++ [city] }
        city.tiles.foldl (fun acc co => acc.setTileOwner co idx false) mm1)
      mm).height = m.height ∧
    ((rest.map City.exportC).foldl
      (fun mm cd =>
        let city := City.importC cd
        let idx := mm.cities.length
        let mm1 := { mm with cities := mm.cities ++ [city] }
        city.tiles.foldl (fun acc co => acc.setTileOwner co idx false) mm1)
      mm).tiles.map Tile.exportT = m.tiles.map Tile.exportT ∧
    ((rest.map City.exportC).foldl
      (fun mm cd =>
        let city := City.importC cd
        let idx := mm.cities.length
        let mm1 := { mm with cities := mm.cities ++ [city] }
        city.tiles.foldl (fun acc co => acc.setTileOwner co idx false) mm1)
      mm).cities = mm.cities ++ rest := by
  intro rest
  induction rest with
  | nil => intro _ mm h1 h2 h3; exact ⟨h1, h2, h3, by simp⟩
  | cons ci rest2 ih =>
    intro hin mm h1 h2 h3
    simp only [List.map_cons, List.foldl_cons, importC_exportC]
    have hinner := import_city_fold m hwf ci (hin ci (by simp)) mm.cities.length
      ci.tiles (fun _ hx => hx)
      { mm with cities := mm.cities ++ [ci] }
      h1 h2 h3
      (by
        show (mm.cities ++ [ci]).get? mm.cities.length = some ci
        exact List.get?_concat_length _ _)
    have hnext := ih (fun x hx => hin x (by simp [hx]))
      (ci.tiles.foldl (fun acc co => acc.setTileOwner co mm.cities.length false)
        { mm with cities := mm.cities ++ [ci] })
      hinner.1 hinner.2.1 hinner.2.2.1
    refine ⟨hnext.1, hnext.2.1, hnext.2.2.1, hnext.2.2.2.trans ?_⟩
    rw [hinner.2.2.2]
    show (mm.cities ++ [ci]) ++ rest2 = mm.cities ++ ci :: rest2
    simp

theorem mapExport_roundtrip (m : GameMap) (hwf : mapWFb m = true) :
    (GameMap.importM m.exportM).exportM = m.exportM := by
  have hw := mapWFb_spec m hwf
  have h0tiles : ((m.exportM.tiles.map Tile.importT).map Tile.exportT) =
      m.tiles.map Tile.exportT := by
    show (((m.tiles.map Tile.exportT).map Tile.importT).map Tile.exportT) =
      m.tiles.map Tile.exportT
    simp only [List.map_map]
    exact List.map_congr_left (fun t _ => exportT_importT (t.exportT))
  have hfold := import_cities_fold m hw m.cities (fun _ h => h)
    { height := m.exportM.height, width := m.exportM.width
      tiles := m.exportM.tiles.map Tile.importT
      cities := [], traders := [], updates := [] }
    rfl rfl h0tiles
  have hresH : (GameMap.importM m.exportM).height = m.height := hfold.2.1
  have hresW : (GameMap.importM m.exportM).width = m.width := hfold.1
  have hresT : (GameMap.importM m.exportM).tiles.map Tile.exportT =
      m.tiles.map Tile.exportT := hfold.2.2.1
  have hresC : (GameMap.importM m.exportM).cities = m.cities := by
    have h := hfold.2.2.2
    exact h.trans (by rfl)
  have hresTr : (GameMap.importM m.exportM).traders =
      (m.traders.map Trader.exportTr).map Trader.importTr := rfl
  have hfin : ∀ X : GameMap, X.height = m.height → X.width = m.width →
      X.tiles.map Tile.exportT = m.tiles.map Tile.exportT → X.cities = m.cities →
      X.traders = (m.traders.map Trader.exportTr).map Trader.importTr →
      X.exportM = m.exportM := by
    intro X h1 h2 h3 h4 h5
    unfold GameMap.exportM
    rw [h1, h2, h3, h4, h5]
    simp only [MapExport.mk.injEq, List.map_map, true_and]
    exact List.map_congr_left (fun t _ => exportTr_importTr (t.exportTr))
  exact hfin _ hresH hresW hresT hresC hresTr

/-- C4: the save/load round trip — importing an exported game and
exporting again reproduces the original export.  The tile owners are
restored by re-running `setTileOwner` with overwrite=false over each
city's owned-coord set, which re-marks each owned tile discovered and
re-adds each coord to its city; on well-formed states (owned tiles
already discovered by their owner civ, owned coords already in the city
set — exactly what `settleCityAt`/`setTileOwner` establish) these
re-runs change nothing the export carries. -/
theorem c4_save_load_round_trip (g : Game) (hwf : mapWFb g.world.map = true) :
    (Game.importG g.exportG).exportG = g.exportG := by
  have h := mapExport_roundtrip g.world.map hwf
  unfold Game.exportG Game.importG World.exportW World.importW
  rw [h]

/-- C4 witness: a concrete game with one settled city round-trips. -/
theorem c4_witness : (Game.importG exGame4.exportG).exportG = exGame4.exportG :=
  c4_save_load_round_trip exGame4 (by decide)
